import Mathlib

/-!
Shallow embedding of `bingo-generator/generate_tickets.py` (British bingo ticket
generator): the grid algorithm of `BritishBingoCard`, the QR payload encoder of
`generate_qr_code`, and the id allocation of `generate_tickets_pdf`.

The Python code is randomized through `random.shuffle` / `random.sample` /
`random.choice`.  Here every random primitive is driven by an explicit integer
tape, so each definition is a deterministic function of the tape, and every
outcome the Python code can produce is the value at some tape.  Claims about
"every generated grid" are theorems quantified over all tapes.
-/

namespace Bingo

/-- Numbers excluded from generated tickets (`EXCLUDED_NUMBERS` in the source). -/
def EXCLUDED_NUMBERS : List Nat := [20, 72]

/-- The `column_ranges` table of `BritishBingoCard.generate`. -/
def column_ranges : List (Nat × Nat) :=
  [(1, 9), (10, 19), (20, 29), (30, 39), (40, 49), (50, 59), (60, 69), (70, 79), (80, 90)]

/-- One integer stream per call site of the `random` module, indexed by the
loop variables of `BritishBingoCard.generate` and `_balance_rows`. -/
structure Tape where
  colShuffle : Nat → Nat → Nat
  colRows : Nat → Nat → Nat
  balCols : Nat → Nat → Nat
  balChoice : Nat → Nat → Nat

/-- The all-zeros tape, used for concrete evaluations. -/
def trivTape : Tape :=
  ⟨fun _ _ => 0, fun _ _ => 0, fun _ _ => 0, fun _ _ => 0⟩

/-- Tape-driven shuffle standing for `random.shuffle`: each tape realises one
permutation of `l`, and every permutation of `l` is realised by some tape. -/
def shuffle (t : Nat → Nat) : List Nat → List Nat
  | [] => []
  | x :: xs => (shuffle (fun n => t (n + 1)) xs).insertIdx (t 0 % (xs.length + 1)) x

/-- Embeds `random.sample(population, k)`: `k` pairwise-distinct elements of the
population, in selection order. -/
def sample (t : Nat → Nat) (population : List Nat) (k : Nat) : List Nat :=
  (shuffle t population).take k

/-- Embeds `random.choice(l)` (for nonempty `l`), driven by one tape value. -/
def choice (r : Nat) (l : List Nat) : Nat :=
  l.getD (r % l.length) 0

/-- A card grid: 3 rows of 9 cells, `0` is a blank (`self.grid` in the source). -/
abbrev Grid := List (List Nat)

/-- The grid built by `BritishBingoCard.__init__`. -/
def emptyGrid : Grid := List.replicate 3 (List.replicate 9 0)

/-- Reads `self.grid[r][c]`. -/
def getCell (g : Grid) (r c : Nat) : Nat := (g.getD r []).getD c 0

/-- Embeds the assignment `self.grid[r][c] = v`. -/
def setCell (g : Grid) (r c v : Nat) : Grid := g.set r ((g.getD r []).set c v)

/-- Well-formedness: 3 rows of 9 cells, as set up by `__init__` and preserved by
every mutation of the source. -/
def gridWF (g : Grid) : Prop := g.length = 3 ∧ ∀ r < 3, (g.getD r []).length = 9

/-- Embeds `range(min_val, max_val + 1)` for a `(min_val, max_val)` pair. -/
def rangeList (lo hi : Nat) : List Nat := List.range' lo (hi + 1 - lo)

/-- Embeds `[n for n in range(min_val, max_val + 1) if n not in excluded]`, the
available numbers of one column of `BritishBingoCard.generate`. -/
def availableNumbers (excluded : List Nat) (col : Nat) : List Nat :=
  let r := column_ranges.getD col (0, 0)
  (rangeList r.1 r.2).filter (fun n => !excluded.contains n)

/-- The loop `for i, row in enumerate(rows_to_fill): self.grid[row][col] = available_numbers[i]`,
with the `(row, value)` pairs zipped up front. -/
def assignPairs (col : Nat) (pairs : List (Nat × Nat)) (g : Grid) : Grid :=
  pairs.foldl (fun g p => setCell g p.1 col p.2) g

/-- The body of the per-column loop of `BritishBingoCard.generate`. -/
def fillColumn (excluded : List Nat) (t : Tape) (g : Grid) (col : Nat) : Grid :=
  let available := shuffle (t.colShuffle col) (availableNumbers excluded col)
  let numInColumn := min 3 available.length
  let rowsToFill := sample (t.colRows col) [0, 1, 2] numInColumn
  assignPairs col (rowsToFill.zip available) g

/-- The per-column loop of `BritishBingoCard.generate`, before balancing. -/
def columnPass (excluded : List Nat) (t : Tape) : Grid :=
  (List.range 9).foldl (fillColumn excluded t) emptyGrid

/-- Embeds `BritishBingoCard._get_column_range`. -/
def get_column_range (col : Nat) : Nat × Nat :=
  [(1, 9), (10, 19), (20, 29), (30, 39), (40, 49),
   (50, 59), (60, 69), (70, 79), (80, 90)].getD col (0, 0)

/-- One deficit-branch fill of `_balance_rows`: draw a number of the column
range unused in the column and not excluded, or leave the cell blank when no
such number exists. -/
def balanceFill (excluded : List Nat) (t : Tape) (rowIdx : Nat) (g : Grid) (col : Nat) : Grid :=
  let r := get_column_range col
  let usedInCol := (List.range 3).map (fun rr => getCell g rr col)
  let available := (rangeList r.1 r.2).filter
    (fun n => !usedInCol.contains n && !excluded.contains n)
  if available.isEmpty then g
  else setCell g rowIdx col (choice (t.balChoice rowIdx col) available)

/-- One iteration of the row loop of `BritishBingoCard._balance_rows`. -/
def balanceRow (excluded : List Nat) (t : Tape) (g : Grid) (rowIdx : Nat) : Grid :=
  let row := g.getD rowIdx []
  let numCount := row.countP (fun cell => cell != 0)
  if numCount < 5 then
    let emptyCols := (row.enum.filter (fun p => p.2 == 0)).map Prod.fst
    let colsToFill := sample (t.balCols rowIdx) emptyCols (5 - numCount)
    colsToFill.foldl (balanceFill excluded t rowIdx) g
  else if numCount > 5 then
    let filledCols := (row.enum.filter (fun p => p.2 != 0)).map Prod.fst
    let colsToEmpty := sample (t.balCols rowIdx) filledCols (numCount - 5)
    colsToEmpty.foldl (fun g col => setCell g rowIdx col 0) g
  else g

/-- Embeds `BritishBingoCard._balance_rows`. -/
def balance_rows (excluded : List Nat) (t : Tape) (g : Grid) : Grid :=
  (List.range 3).foldl (balanceRow excluded t) g

/-- The body of the reassignment loop of `_sort_columns`: write the next sorted
value into the current row when its cell is occupied, else skip the row. -/
def sortStep (col : Nat) (sorted : List Nat) (p : Grid × Nat) (row : Nat) : Grid × Nat :=
  if getCell p.1 row col != 0 then (setCell p.1 row col (sorted.getD p.2 0), p.2 + 1) else p

/-- One iteration of the column loop of `BritishBingoCard._sort_columns`. -/
def sortColumn (g : Grid) (col : Nat) : Grid :=
  let columnValues := ((List.range 3).map (fun row => getCell g row col)).filter (fun v => v != 0)
  let sorted := columnValues.insertionSort (fun a b => a ≤ b)
  ((List.range 3).foldl (sortStep col sorted) (g, 0)).1

/-- Embeds `BritishBingoCard._sort_columns`. -/
def sort_columns (g : Grid) : Grid := (List.range 9).foldl sortColumn g

/-- Embeds `BritishBingoCard.generate`. -/
def generate (excluded : List Nat) (t : Tape) : Grid :=
  sort_columns (balance_rows excluded t (columnPass excluded t))

/-- Embeds `BritishBingoCard.to_flat_list`. -/
def to_flat_list (g : Grid) : List Nat := g.flatten

/-- Embeds `struct.pack("<H", x)`: two little-endian bytes, failing outside
`0..65535` like the Python call. -/
def pack_u16_le (x : Nat) : Option (List Nat) :=
  if x < 65536 then some [x % 256, x / 256] else none

/-- Embeds `struct.pack("B", x)`: one byte, failing outside `0..255`. -/
def pack_u8 (x : Nat) : Option (List Nat) :=
  if x < 256 then some [x] else none

/-- The binary payload built by `generate_qr_code`: 2-byte little-endian ticket
id, then one byte per entry of `card_data`, appended in order. -/
def qr_payload (ticket_id : Nat) (card_data : List Nat) : Option (List Nat) :=
  (pack_u16_le ticket_id).bind (fun acc0 =>
    card_data.foldl (fun acc v => acc.bind (fun bs => (pack_u8 v).map (fun b => bs ++ b)))
      (some acc0))

/-- Modelled from the spec: the decoder belongs to the downstream scanner app,
which is not part of this repository; per the spec it reads 2 bytes
little-endian, then 27 row-major cell bytes. -/
def decode_payload (payload : List Nat) : Option (Nat × List Nat) :=
  match payload with
  | b0 :: b1 :: rest => if rest.length = 27 then some (b0 + 256 * b1, rest) else none
  | _ => none

/-- Embeds the id allocation of `generate_tickets_pdf`:
`all_ids = list(range(1000, 10000)); random.shuffle(all_ids); ticket_ids = all_ids[:num_tickets]`. -/
def ticket_ids (t : Nat → Nat) (num_tickets : Nat) : List Nat :=
  (shuffle t (List.range' 1000 9000)).take num_tickets

/-- Embeds the ticket-building loop of `generate_tickets_pdf`; `cardTapes i` is
the randomness consumed by the card of the `i`-th ticket. -/
def build_batch (t : Nat → Nat) (cardTapes : Nat → Tape) (num_tickets : Nat) :
    List (Nat × List Nat) :=
  (ticket_ids t num_tickets).enum.map
    (fun p => (p.2, to_flat_list (generate EXCLUDED_NUMBERS (cardTapes p.1))))

/-! ### Basic facts about the tape-driven random primitives -/

theorem insertIdx_perm_cons (a : Nat) :
    ∀ (n : Nat) (l : List Nat), n ≤ l.length → List.Perm (l.insertIdx n a) (a :: l)
  | 0, l, _ => by rw [List.insertIdx_zero]
  | n + 1, [], h => by simp at h
  | n + 1, x :: xs, h => by
    rw [List.insertIdx_succ_cons]
    exact ((insertIdx_perm_cons a n xs (by simpa using h)).cons x).trans (List.Perm.swap a x xs)

theorem shuffle_perm (t : Nat → Nat) : ∀ l : List Nat, List.Perm (shuffle t l) l
  | [] => List.Perm.refl _
  | x :: xs => by
    have ih := shuffle_perm (fun n => t (n + 1)) xs
    have hle : t 0 % (xs.length + 1) ≤ (shuffle (fun n => t (n + 1)) xs).length := by
      rw [ih.length_eq]
      exact Nat.le_of_lt_succ (Nat.mod_lt _ (Nat.succ_pos _))
    rw [shuffle]
    exact (insertIdx_perm_cons x _ _ hle).trans (ih.cons x)

theorem shuffle_length (t : Nat → Nat) (l : List Nat) : (shuffle t l).length = l.length :=
  (shuffle_perm t l).length_eq

theorem shuffle_mem {t : Nat → Nat} {l : List Nat} {a : Nat} : a ∈ shuffle t l ↔ a ∈ l :=
  (shuffle_perm t l).mem_iff

theorem shuffle_nodup {t : Nat → Nat} {l : List Nat} (h : l.Nodup) : (shuffle t l).Nodup :=
  (shuffle_perm t l).nodup_iff.mpr h

theorem sample_length (t : Nat → Nat) (pop : List Nat) (k : Nat) :
    (sample t pop k).length = min k pop.length := by
  simp [sample, shuffle_length]

theorem sample_nodup {t : Nat → Nat} {pop : List Nat} (k : Nat) (h : pop.Nodup) :
    (sample t pop k).Nodup :=
  (List.take_sublist _ _).nodup (shuffle_nodup h)

theorem sample_subset {t : Nat → Nat} {pop : List Nat} {k a : Nat} (h : a ∈ sample t pop k) :
    a ∈ pop :=
  shuffle_mem.mp (List.take_subset _ _ h)

theorem choice_mem {l : List Nat} (h : l ≠ []) (r : Nat) : choice r l ∈ l := by
  have hlt : r % l.length < l.length := Nat.mod_lt _ (List.length_pos.mpr h)
  unfold choice
  rw [List.getD_eq_getElem?_getD, List.getElem?_eq_getElem hlt]
  exact List.getElem_mem hlt

/-! ### Cell access and update -/

instance (g : Grid) : Decidable (gridWF g) := by
  unfold gridWF
  infer_instance

theorem gridWF_emptyGrid : gridWF emptyGrid := by decide

theorem getCell_setCell_self {g : Grid} (hWF : gridWF g) {r c : Nat} (hr : r < 3) (hc : c < 9)
    (v : Nat) : getCell (setCell g r c v) r c = v := by
  obtain ⟨hlen, hrow⟩ := hWF
  have h1 : r < g.length := by omega
  have h2 : c < (g.getD r []).length := by rw [hrow r hr]; exact hc
  simp only [List.getD_eq_getElem?_getD] at h2
  simp [getCell, setCell, List.getElem?_set_self h1, List.getElem?_set_self h2]

theorem getCell_setCell_ne {g : Grid} {r c : Nat} (r' c' : Nat) (h : r' ≠ r ∨ c' ≠ c) (v : Nat) :
    getCell (setCell g r c v) r' c' = getCell g r' c' := by
  by_cases hr : r' = r
  · subst hr
    have hc : c' ≠ c := h.resolve_left (by simp)
    simp only [getCell, setCell, List.getD_eq_getElem?_getD, List.getElem?_set_self']
    cases hgr : g[r']? with
    | none => simp
    | some row => simp [List.getElem?_set_ne (Ne.symm hc)]
  · simp [getCell, setCell, List.getD_eq_getElem?_getD, List.getElem?_set_ne (Ne.symm hr)]

theorem row_setCell_other {g : Grid} {r : Nat} (r' c v : Nat) (h : r' ≠ r) :
    (setCell g r c v).getD r' [] = g.getD r' [] := by
  simp [setCell, List.getD_eq_getElem?_getD, List.getElem?_set_ne (Ne.symm h)]

theorem gridWF_setCell {g : Grid} (hWF : gridWF g) (r c v : Nat) : gridWF (setCell g r c v) := by
  obtain ⟨hlen, hrow⟩ := hWF
  refine ⟨by simp [setCell, hlen], ?_⟩
  intro r' hr'
  by_cases hr : r' = r
  · subst hr
    have h1 : r' < g.length := by omega
    have h2 := hrow r' hr'
    simp only [List.getD_eq_getElem?_getD] at h2 ⊢
    simp [setCell, List.getElem?_set_self h1]
    cases hgr : g[r']? with
    | none => simp [hgr] at h2
    | some row => simp [hgr] at h2 ⊢; simpa using h2
  · rw [show (setCell g r c v).getD r' [] = g.getD r' [] from row_setCell_other r' c v hr]
    exact hrow r' hr'

/-! ### The per-column pass -/

theorem gridWF_assignPairs {g : Grid} (hWF : gridWF g) (col : Nat) (pairs : List (Nat × Nat)) :
    gridWF (assignPairs col pairs g) := by
  induction pairs generalizing g with
  | nil => exact hWF
  | cons p ps ih => exact ih (gridWF_setCell hWF _ _ _)

theorem getCell_assignPairs_other_col {col : Nat} (pairs : List (Nat × Nat)) {g : Grid}
    (r c : Nat) (h : c ≠ col) :
    getCell (assignPairs col pairs g) r c = getCell g r c := by
  induction pairs generalizing g with
  | nil => rfl
  | cons p ps ih =>
    rw [show assignPairs col (p :: ps) g = assignPairs col ps (setCell g p.1 col p.2) from rfl,
      ih, getCell_setCell_ne _ _ (Or.inr h)]

theorem getCell_assignPairs_not_mem {col : Nat} (pairs : List (Nat × Nat)) {g : Grid}
    (r c : Nat) (h : r ∉ pairs.map Prod.fst) :
    getCell (assignPairs col pairs g) r c = getCell g r c := by
  induction pairs generalizing g with
  | nil => rfl
  | cons p ps ih =>
    simp only [List.map_cons, List.mem_cons] at h
    push_neg at h
    rw [show assignPairs col (p :: ps) g = assignPairs col ps (setCell g p.1 col p.2) from rfl,
      ih h.2, getCell_setCell_ne _ _ (Or.inl h.1)]

theorem getCell_assignPairs_mem {col : Nat} {pairs : List (Nat × Nat)} {g : Grid}
    (hWF : gridWF g) (hnd : (pairs.map Prod.fst).Nodup) {r v : Nat}
    (hmem : (r, v) ∈ pairs) (hr : r < 3) (hc : col < 9) :
    getCell (assignPairs col pairs g) r col = v := by
  induction pairs generalizing g with
  | nil => simp at hmem
  | cons p ps ih =>
    simp only [List.map_cons, List.nodup_cons] at hnd
    rcases List.mem_cons.mp hmem with heq | hmem2
    · subst heq
      rw [show assignPairs col ((r, v) :: ps) g = assignPairs col ps (setCell g r col v) from rfl,
        getCell_assignPairs_not_mem ps _ _ hnd.1, getCell_setCell_self hWF hr hc]
    · rw [show assignPairs col (p :: ps) g = assignPairs col ps (setCell g p.1 col p.2) from rfl]
      exact ih (gridWF_setCell hWF _ _ _) hnd.2 hmem2

theorem zip_snd_ne {l1 l2 : List Nat} (h2 : l2.Nodup) {a b a2 b2 : Nat}
    (hm : (a, b) ∈ l1.zip l2) (hm2 : (a2, b2) ∈ l1.zip l2) (hab : a ≠ a2) : b ≠ b2 := by
  induction l1 generalizing l2 with
  | nil => simp at hm
  | cons x xs ih =>
    cases l2 with
    | nil => simp at hm
    | cons y ys =>
      simp only [List.zip_cons_cons, List.mem_cons] at hm hm2
      rcases hm with h | h <;> rcases hm2 with h2' | h2'
      · rw [Prod.mk.injEq] at h h2'
        exact absurd (h.1.trans h2'.1.symm) hab
      · cases h
        intro hbb
        apply (List.nodup_cons.mp h2).1
        rw [hbb]
        exact (List.of_mem_zip h2').2
      · cases h2'
        intro hbb
        apply (List.nodup_cons.mp h2).1
        rw [← hbb]
        exact (List.of_mem_zip h).2
      · exact ih (List.nodup_cons.mp h2).2 h h2'

theorem assignPairs_covers {col : Nat} {rows vals : List Nat} {g : Grid} (hWF : gridWF g)
    (hc : col < 9) (hnd_rows : rows.Nodup) (hnd_vals : vals.Nodup)
    (hlen : rows.length ≤ vals.length) {r : Nat} (hr : r < 3) (hmem : r ∈ rows) :
    getCell (assignPairs col (rows.zip vals) g) r col ∈ vals ∧
    ∀ r2, r2 < 3 → r2 ∈ rows → r2 ≠ r →
      getCell (assignPairs col (rows.zip vals) g) r2 col ≠
        getCell (assignPairs col (rows.zip vals) g) r col := by
  have hfst : (rows.zip vals).map Prod.fst = rows := List.map_fst_zip _ _ hlen
  have hnd : ((rows.zip vals).map Prod.fst).Nodup := by rw [hfst]; exact hnd_rows
  have hget : ∀ r3, r3 < 3 → r3 ∈ rows →
      ∃ v, (r3, v) ∈ rows.zip vals ∧ getCell (assignPairs col (rows.zip vals) g) r3 col = v := by
    intro r3 h3 hm3
    have hm : r3 ∈ (rows.zip vals).map Prod.fst := by rw [hfst]; exact hm3
    obtain ⟨p, hp, hp1⟩ := List.mem_map.mp hm
    have hp2 : (r3, p.2) ∈ rows.zip vals := by rw [← hp1, Prod.mk.eta]; exact hp
    exact ⟨p.2, hp2, getCell_assignPairs_mem hWF hnd hp2 h3 hc⟩
  obtain ⟨v, hvp, hv⟩ := hget r hr hmem
  constructor
  · rw [hv]; exact (List.of_mem_zip hvp).2
  · intro r2 h2 hm2 hne
    obtain ⟨v2, hvp2, hv2⟩ := hget r2 h2 hm2
    rw [hv, hv2]
    exact zip_snd_ne hnd_vals hvp2 hvp hne

theorem gridWF_fillColumn {ex : List Nat} {t : Tape} {g : Grid} (hWF : gridWF g) (col : Nat) :
    gridWF (fillColumn ex t g col) :=
  gridWF_assignPairs hWF _ _

theorem getCell_fillColumn_other {ex : List Nat} {t : Tape} {g : Grid} {col c : Nat} (r : Nat)
    (h : c ≠ col) : getCell (fillColumn ex t g col) r c = getCell g r c :=
  getCell_assignPairs_other_col _ _ _ h

theorem availableNumbers_nodup (ex : List Nat) (c : Nat) : (availableNumbers ex c).Nodup :=
  (List.nodup_range' _ _).filter _

theorem fillColumn_spec {ex : List Nat} (t : Tape) {g : Grid} (hWF : gridWF g) {col : Nat}
    (hc : col < 9) (hlen : 3 ≤ (availableNumbers ex col).length) {r : Nat} (hr : r < 3) :
    getCell (fillColumn ex t g col) r col ∈ availableNumbers ex col ∧
    ∀ r2, r2 < 3 → r2 ≠ r →
      getCell (fillColumn ex t g col) r2 col ≠ getCell (fillColumn ex t g col) r col := by
  have hnd_shuf : (shuffle (t.colShuffle col) (availableNumbers ex col)).Nodup :=
    shuffle_nodup (availableNumbers_nodup ex col)
  have hlen_shuf : (shuffle (t.colShuffle col) (availableNumbers ex col)).length =
      (availableNumbers ex col).length := shuffle_length _ _
  have hmin : min 3 (shuffle (t.colShuffle col) (availableNumbers ex col)).length = 3 := by
    omega
  have hrows_eq : sample (t.colRows col) [0, 1, 2] 3 = shuffle (t.colRows col) [0, 1, 2] := by
    unfold sample
    exact List.take_of_length_le (by rw [shuffle_length]; simp)
  have hrows_nd : (shuffle (t.colRows col) [0, 1, 2]).Nodup := shuffle_nodup (by decide)
  have hrows_len : (shuffle (t.colRows col) [0, 1, 2]).length = 3 := by
    rw [shuffle_length]; rfl
  have hrows_mem : ∀ r3, r3 < 3 → r3 ∈ shuffle (t.colRows col) [0, 1, 2] := by
    intro r3 h3
    rw [shuffle_mem]
    interval_cases r3 <;> simp
  have hfc : fillColumn ex t g col =
      assignPairs col ((shuffle (t.colRows col) [0, 1, 2]).zip
        (shuffle (t.colShuffle col) (availableNumbers ex col))) g := by
    simp only [fillColumn]
    rw [hmin, hrows_eq]
  rw [hfc]
  have hcov := assignPairs_covers hWF hc hrows_nd hnd_shuf (by omega) hr (hrows_mem r hr)
  exact ⟨shuffle_mem.mp hcov.1, fun r2 h2 hne => hcov.2 r2 h2 (hrows_mem r2 h2) hne⟩

theorem foldl_fillColumn_pres {ex : List Nat} {t : Tape} (cols : List Nat) (g : Grid) {c : Nat}
    (hnotin : c ∉ cols) (r : Nat) :
    getCell (cols.foldl (fillColumn ex t) g) r c = getCell g r c := by
  induction cols generalizing g with
  | nil => rfl
  | cons c0 cs ih =>
    simp only [List.mem_cons, not_or] at hnotin
    rw [List.foldl_cons, ih _ hnotin.2, getCell_fillColumn_other r hnotin.1]

theorem foldl_fillColumn_spec {ex : List Nat} {t : Tape}
    (hlen : ∀ c, c < 9 → 3 ≤ (availableNumbers ex c).length) :
    ∀ (cols : List Nat) (g : Grid), gridWF g → cols.Nodup → (∀ c ∈ cols, c < 9) →
      ∀ c ∈ cols, ∀ r, r < 3 →
        getCell (cols.foldl (fillColumn ex t) g) r c ∈ availableNumbers ex c ∧
        ∀ r2, r2 < 3 → r2 ≠ r →
          getCell (cols.foldl (fillColumn ex t) g) r2 c ≠
            getCell (cols.foldl (fillColumn ex t) g) r c := by
  intro cols
  induction cols with
  | nil => intro g _ _ _ c hc; simp at hc
  | cons c0 cs ih =>
    intro g hWF hnd hbound c hc r hr
    rw [List.foldl_cons]
    rcases List.mem_cons.mp hc with rfl | hmem
    · have hnotin : c ∉ cs := (List.nodup_cons.mp hnd).1
      have hc9 : c < 9 := hbound c (List.mem_cons_self _ _)
      have hspec := fillColumn_spec t hWF hc9 (hlen c hc9) hr
      constructor
      · rw [foldl_fillColumn_pres cs _ hnotin r]
        exact hspec.1
      · intro r2 h2 hne
        rw [foldl_fillColumn_pres cs _ hnotin r2, foldl_fillColumn_pres cs _ hnotin r]
        exact hspec.2 r2 h2 hne
    · exact ih _ (gridWF_fillColumn hWF c0) (List.nodup_cons.mp hnd).2
        (fun c2 h2 => hbound c2 (List.mem_cons_of_mem _ h2)) c hmem r hr

theorem gridWF_columnPass (ex : List Nat) (t : Tape) : gridWF (columnPass ex t) := by
  unfold columnPass
  have hstep : ∀ (cols : List Nat) (g : Grid), gridWF g →
      gridWF (cols.foldl (fillColumn ex t) g) := by
    intro cols
    induction cols with
    | nil => exact fun g h => h
    | cons c0 cs ih => exact fun g h => ih _ (gridWF_fillColumn h c0)
  exact hstep _ _ gridWF_emptyGrid

theorem columnPass_spec {ex : List Nat} (t : Tape)
    (hlen : ∀ c, c < 9 → 3 ≤ (availableNumbers ex c).length) {c : Nat} (hc : c < 9)
    {r : Nat} (hr : r < 3) :
    getCell (columnPass ex t) r c ∈ availableNumbers ex c ∧
    ∀ r2, r2 < 3 → r2 ≠ r →
      getCell (columnPass ex t) r2 c ≠ getCell (columnPass ex t) r c := by
  unfold columnPass
  exact foldl_fillColumn_spec hlen (List.range 9) emptyGrid gridWF_emptyGrid
    (List.nodup_range _) (fun c2 h2 => List.mem_range.mp h2) c (List.mem_range.mpr hc) r hr

theorem getCell_emptyGrid (r c : Nat) : getCell emptyGrid r c = 0 := by
  simp only [getCell, emptyGrid, List.getD_eq_getElem?_getD, List.getElem?_replicate]
  by_cases hr : r < 3 <;> by_cases hc : c < 9 <;>
    simp [hr, hc, List.getElem?_replicate]
  · interval_cases c <;> rfl
  · rw [List.getElem?_eq_none (by simpa using Nat.le_of_not_lt hc)]
    rfl

theorem fillColumn_empty_avail {ex : List Nat} {t : Tape} {g : Grid} {col : Nat}
    (h : availableNumbers ex col = []) (r c : Nat) :
    getCell (fillColumn ex t g col) r c = getCell g r c := by
  simp only [fillColumn, h]
  rfl

theorem columnPass_empty_avail {ex : List Nat} (t : Tape) {c : Nat}
    (h : availableNumbers ex c = []) (r : Nat) (hr : r < 3) :
    getCell (columnPass ex t) r c = 0 := by
  unfold columnPass
  have hstep : ∀ (cols : List Nat) (g : Grid), (∀ r2, r2 < 3 → getCell g r2 c = 0) →
      ∀ r2, r2 < 3 → getCell (cols.foldl (fillColumn ex t) g) r2 c = 0 := by
    intro cols
    induction cols with
    | nil => exact fun g hg => hg
    | cons c0 cs ih =>
      intro g hg
      rw [List.foldl_cons]
      apply ih
      intro r2 h2
      by_cases hcc : c = c0
      · subst hcc
        rw [fillColumn_empty_avail h]
        exact hg r2 h2
      · rw [getCell_fillColumn_other r2 hcc]
        exact hg r2 h2
  exact hstep _ _ (fun r2 _ => getCell_emptyGrid r2 c) r hr

/-! ### Row counting and the balancing pass -/

/-- The count `sum(1 for cell in row if cell != 0)` of `_balance_rows`. -/
def rowCount (g : Grid) (r : Nat) : Nat := (g.getD r []).countP (fun cell => cell != 0)

theorem countP_getD_range (p : Nat → Bool) :
    ∀ l : List Nat, l.countP p = ((List.range l.length).filter (fun i => p (l.getD i 0))).length := by
  intro l
  induction l with
  | nil => rfl
  | cons x xs ih =>
    rw [List.countP_cons, List.length_cons, List.range_succ_eq_map, List.filter_cons]
    have hcomp : ((List.range xs.length).map Nat.succ).filter (fun i => p ((x :: xs).getD i 0)) =
        ((List.range xs.length).filter (fun i => p (xs.getD i 0))).map Nat.succ := by
      rw [List.filter_map]
      rfl
    simp only [List.getD_cons_zero]
    by_cases hp : p x
    · simp only [hp, if_true, List.length_cons, hcomp, List.length_map]
      omega
    · simp only [hp, if_false, Bool.false_eq_true, hcomp, List.length_map]
      omega

theorem rowCount_congr {g g2 : Grid} {r : Nat} (hg : gridWF g) (hg2 : gridWF g2)
    (hr : r < 3) (h : ∀ c, c < 9 → (getCell g2 r c = 0 ↔ getCell g r c = 0)) :
    rowCount g2 r = rowCount g r := by
  unfold rowCount
  rw [countP_getD_range, countP_getD_range, hg.2 r hr, hg2.2 r hr]
  congr 1
  apply List.filter_congr
  intro c hcmem
  have hc : c < 9 := List.mem_range.mp hcmem
  have hiff := h c hc
  simp only [getCell, List.getD_eq_getElem?_getD] at hiff
  by_cases h2 : (g2[r]?.getD [])[c]?.getD 0 = 0
  · simp [h2, hiff.mp h2]
  · have h3 : ¬(g[r]?.getD [])[c]?.getD 0 = 0 := fun h0 => h2 (hiff.mpr h0)
    rw [Bool.eq_iff_iff]
    simp [bne_iff_ne, h2, h3]

theorem row_setCell_self {g : Grid} {r : Nat} (h : r < g.length) (c v : Nat) :
    (setCell g r c v).getD r [] = (g.getD r []).set c v := by
  simp [setCell, List.getD_eq_getElem?_getD, List.getElem?_set_self h]

theorem countP_set_zero {l : List Nat} : ∀ {c : Nat}, c < l.length → l.getD c 0 ≠ 0 →
    (l.set c 0).countP (fun cell => cell != 0) + 1 = l.countP (fun cell => cell != 0) := by
  induction l with
  | nil => intro c hc; simp at hc
  | cons x xs ih =>
    intro c hc hne
    cases c with
    | zero =>
      simp only [List.getD_cons_zero] at hne
      simp only [List.set_cons_zero, List.countP_cons]
      simp [hne]
    | succ c2 =>
      simp only [List.getD_cons_succ] at hne
      simp only [List.set_cons_succ, List.countP_cons]
      have := ih (by simpa using hc) hne
      omega

/-- The cells blanked by the surplus branch of `_balance_rows`: facts about the
fold `for col in cols_to_empty: self.grid[row_idx][col] = 0`. -/
theorem foldl_setzero_spec {rowIdx : Nat} (hrow : rowIdx < 3) :
    ∀ (cols : List Nat) (g : Grid), gridWF g → cols.Nodup →
      (∀ c ∈ cols, c < 9 ∧ getCell g rowIdx c ≠ 0) →
      gridWF (cols.foldl (fun g2 col => setCell g2 rowIdx col 0) g) ∧
      rowCount (cols.foldl (fun g2 col => setCell g2 rowIdx col 0) g) rowIdx + cols.length =
        rowCount g rowIdx ∧
      (∀ r, r ≠ rowIdx →
        (cols.foldl (fun g2 col => setCell g2 rowIdx col 0) g).getD r [] = g.getD r []) ∧
      (∀ c, getCell (cols.foldl (fun g2 col => setCell g2 rowIdx col 0) g) rowIdx c = 0 ∨
        getCell (cols.foldl (fun g2 col => setCell g2 rowIdx col 0) g) rowIdx c =
          getCell g rowIdx c) := by
  intro cols
  induction cols with
  | nil => exact fun g hWF _ _ => ⟨hWF, by simp [List.foldl_nil], fun _ _ => rfl, fun _ => Or.inr rfl⟩
  | cons c0 cs ih =>
    intro g hWF hnd hmem
    have hc0 := hmem c0 (List.mem_cons_self _ _)
    have hWF2 : gridWF (setCell g rowIdx c0 0) := gridWF_setCell hWF _ _ _
    have hmem2 : ∀ c ∈ cs, c < 9 ∧ getCell (setCell g rowIdx c0 0) rowIdx c ≠ 0 := by
      intro c hc
      have hne : c ≠ c0 := fun h => (List.nodup_cons.mp hnd).1 (h ▸ hc)
      rw [getCell_setCell_ne _ _ (Or.inr hne)]
      exact hmem c (List.mem_cons_of_mem _ hc)
    obtain ⟨iWF, icount, irows, icells⟩ := ih (setCell g rowIdx c0 0) hWF2 (List.nodup_cons.mp hnd).2 hmem2
    rw [List.foldl_cons]
    refine ⟨iWF, ?_, ?_, ?_⟩
    · have hset : rowCount (setCell g rowIdx c0 0) rowIdx + 1 = rowCount g rowIdx := by
        unfold rowCount
        rw [row_setCell_self (by rw [hWF.1]; exact hrow : rowIdx < g.length)]
        exact countP_set_zero (by rw [hWF.2 rowIdx hrow]; exact hc0.1) hc0.2
      simp only [List.length_cons]
      omega
    · intro r hr
      rw [irows r hr, row_setCell_other r c0 0 hr]
    · intro c
      rcases icells c with h0 | hsame
      · exact Or.inl h0
      · rw [hsame]
        by_cases hcc : c = c0
        · subst hcc
          exact Or.inl (getCell_setCell_self hWF hrow hc0.1 0)
        · rw [getCell_setCell_ne _ _ (Or.inr hcc)]
          exact Or.inr rfl

theorem filledCols_facts {g : Grid} (hWF : gridWF g) {rowIdx : Nat} (hrow : rowIdx < 3) :
    (((g.getD rowIdx []).enum.filter (fun p => p.2 != 0)).map Prod.fst).Nodup ∧
    (∀ c ∈ ((g.getD rowIdx []).enum.filter (fun p => p.2 != 0)).map Prod.fst,
      c < 9 ∧ getCell g rowIdx c ≠ 0) ∧
    (((g.getD rowIdx []).enum.filter (fun p => p.2 != 0)).map Prod.fst).length =
      rowCount g rowIdx := by
  have hlen9 : (g.getD rowIdx []).length = 9 := hWF.2 rowIdx hrow
  have hsub : List.Sublist (((g.getD rowIdx []).enum.filter (fun p => p.2 != 0)).map Prod.fst)
      (List.range 9) := by
    have h1 := (@List.filter_sublist (Nat × Nat) (fun p => p.2 != 0)
      ((g.getD rowIdx []).enum)).map Prod.fst
    rw [List.enum_map_fst, hlen9] at h1
    exact h1
  refine ⟨hsub.nodup (List.nodup_range _), ?_, ?_⟩
  · intro c hc
    obtain ⟨p, hp, hp1⟩ := List.mem_map.mp hc
    rw [List.mem_filter] at hp
    have hpe := List.mem_enum_iff_getElem?.mp hp.1
    constructor
    · exact List.mem_range.mp (hsub.subset hc)
    · have : getCell g rowIdx c = p.2 := by
        unfold getCell
        rw [List.getD_eq_getElem?_getD, ← hp1, hpe]
        rfl
      rw [this]
      simpa using hp.2
  · rw [List.length_map, ← List.countP_eq_length_filter]
    unfold rowCount
    conv_rhs => rw [← List.enum_map_snd (g.getD rowIdx []), List.countP_map]
    rfl

theorem gridWF_balanceFill {ex : List Nat} {t : Tape} {rowIdx : Nat} {g : Grid}
    (hWF : gridWF g) (col : Nat) : gridWF (balanceFill ex t rowIdx g col) := by
  simp only [balanceFill]
  split
  · exact hWF
  · exact gridWF_setCell hWF _ _ _

theorem gridWF_foldl_balanceFill {ex : List Nat} {t : Tape} {rowIdx : Nat} :
    ∀ (cols : List Nat) (g : Grid), gridWF g →
      gridWF (cols.foldl (balanceFill ex t rowIdx) g) := by
  intro cols
  induction cols with
  | nil => exact fun g h => h
  | cons c0 cs ih => exact fun g h => ih _ (gridWF_balanceFill h c0)

theorem gridWF_foldl_setzero {rowIdx : Nat} :
    ∀ (cols : List Nat) (g : Grid), gridWF g →
      gridWF (cols.foldl (fun g2 col => setCell g2 rowIdx col 0) g) := by
  intro cols
  induction cols with
  | nil => exact fun g h => h
  | cons c0 cs ih => exact fun g h => ih _ (gridWF_setCell h _ _ _)

theorem gridWF_balanceRow {ex : List Nat} {t : Tape} {g : Grid} (hWF : gridWF g)
    (rowIdx : Nat) : gridWF (balanceRow ex t g rowIdx) := by
  simp only [balanceRow]
  split
  · exact gridWF_foldl_balanceFill _ _ hWF
  split
  · exact gridWF_foldl_setzero _ _ hWF
  · exact hWF

/-- A row already holding at least 5 numbers is trimmed to exactly 5 by
`_balance_rows`, touching no other row and never introducing a new number. -/
theorem balanceRow_spec {ex : List Nat} {t : Tape} {g : Grid} (hWF : gridWF g) (rowIdx : Nat)
    (hrow : rowIdx < 3) (hge : 5 ≤ rowCount g rowIdx) :
    gridWF (balanceRow ex t g rowIdx) ∧
    rowCount (balanceRow ex t g rowIdx) rowIdx = 5 ∧
    (∀ r, r ≠ rowIdx → (balanceRow ex t g rowIdx).getD r [] = g.getD r []) ∧
    (∀ r c, getCell (balanceRow ex t g rowIdx) r c = 0 ∨
      getCell (balanceRow ex t g rowIdx) r c = getCell g r c) := by
  obtain ⟨hnd, hmem, hlen⟩ := filledCols_facts hWF hrow
  have hcount : (g.getD rowIdx []).countP (fun cell => cell != 0) = rowCount g rowIdx := rfl
  rcases Nat.lt_or_ge 5 (rowCount g rowIdx) with hgt | hle5
  · -- strictly more than 5 numbers: the surplus branch runs
    have hbr : balanceRow ex t g rowIdx =
        (sample (t.balCols rowIdx) (((g.getD rowIdx []).enum.filter
            (fun p => p.2 != 0)).map Prod.fst) (rowCount g rowIdx - 5)).foldl
          (fun g2 col => setCell g2 rowIdx col 0) g := by
      unfold balanceRow
      rw [if_neg (by rw [hcount]; omega), if_pos (by rw [hcount]; omega)]
      rfl
    set cols := sample (t.balCols rowIdx) (((g.getD rowIdx []).enum.filter
      (fun p => p.2 != 0)).map Prod.fst) (rowCount g rowIdx - 5) with hcols
    have hnd2 : cols.Nodup := sample_nodup _ hnd
    have hmem2 : ∀ c ∈ cols, c < 9 ∧ getCell g rowIdx c ≠ 0 :=
      fun c hc => hmem c (sample_subset hc)
    have hlen2 : cols.length = rowCount g rowIdx - 5 := by
      rw [hcols, sample_length, hlen]
      omega
    obtain ⟨hWF2, hc2, hr2, hv2⟩ := foldl_setzero_spec hrow cols g hWF hnd2 hmem2
    rw [hbr]
    refine ⟨hWF2, by omega, hr2, ?_⟩
    intro r c
    by_cases hr : r = rowIdx
    · subst hr
      exact hv2 c
    · right
      unfold getCell
      rw [hr2 r hr]
  · -- exactly 5 numbers: `_balance_rows` leaves the row alone
    have h5 : rowCount g rowIdx = 5 := by omega
    have hbr : balanceRow ex t g rowIdx = g := by
      unfold balanceRow
      rw [if_neg (by rw [hcount]; omega), if_neg (by rw [hcount]; omega)]
    rw [hbr]
    exact ⟨hWF, h5, fun _ _ => rfl, fun _ _ => Or.inr rfl⟩

/-- Unfolds `_balance_rows` to its three sequential row passes. -/
theorem balance_rows_eq (ex : List Nat) (t : Tape) (g : Grid) :
    balance_rows ex t g = balanceRow ex t (balanceRow ex t (balanceRow ex t g 0) 1) 2 := rfl

theorem balance_rows_spec {ex : List Nat} {t : Tape} {g : Grid} (hWF : gridWF g)
    (hge : ∀ r, r < 3 → 5 ≤ rowCount g r) :
    gridWF (balance_rows ex t g) ∧
    (∀ r, r < 3 → rowCount (balance_rows ex t g) r = 5) ∧
    (∀ r c, getCell (balance_rows ex t g) r c = 0 ∨
      getCell (balance_rows ex t g) r c = getCell g r c) := by
  obtain ⟨hWF1, hc1, hrows1, hv1⟩ := balanceRow_spec hWF 0 (by omega) (hge 0 (by omega))
  have hcount1 : ∀ r, r ≠ 0 → rowCount (balanceRow ex t g 0) r = rowCount g r := by
    intro r hr
    unfold rowCount
    rw [hrows1 r hr]
  obtain ⟨hWF2, hc2, hrows2, hv2⟩ :=
    balanceRow_spec hWF1 1 (by omega) (by rw [hcount1 1 (by omega)]; exact hge 1 (by omega))
  have hcount2 : ∀ r, r ≠ 1 → rowCount (balanceRow ex t (balanceRow ex t g 0) 1) r =
      rowCount (balanceRow ex t g 0) r := by
    intro r hr
    unfold rowCount
    rw [hrows2 r hr]
  obtain ⟨hWF3, hc3, hrows3, hv3⟩ := balanceRow_spec hWF2 2 (by omega)
    (by rw [hcount2 2 (by omega), hcount1 2 (by omega)]; exact hge 2 (by omega))
  have hcount3 : ∀ r, r ≠ 2 →
      rowCount (balanceRow ex t (balanceRow ex t (balanceRow ex t g 0) 1) 2) r =
        rowCount (balanceRow ex t (balanceRow ex t g 0) 1) r := by
    intro r hr
    unfold rowCount
    rw [hrows3 r hr]
  rw [balance_rows_eq]
  refine ⟨hWF3, ?_, ?_⟩
  · intro r hr
    interval_cases r
    · rw [hcount3 0 (by omega), hcount2 0 (by omega)]
      exact hc1
    · rw [hcount3 1 (by omega)]
      exact hc2
    · exact hc3
  · intro r c
    rcases hv3 r c with h3 | h3
    · exact Or.inl h3
    rcases hv2 r c with h2 | h2
    · exact Or.inl (h3.trans h2)
    rcases hv1 r c with h1 | h1
    · exact Or.inl ((h3.trans h2).trans h1)
    · exact Or.inr (((h3.trans h2).trans h1))

/-! ### The column sorting pass -/

theorem sortStep_zero {col : Nat} {s : List Nat} (p : Grid × Nat) (row : Nat)
    (h : getCell p.1 row col = 0) : sortStep col s p row = p := by
  unfold sortStep
  rw [if_neg]
  simp [h]

theorem sortStep_pos {col : Nat} {s : List Nat} (p : Grid × Nat) (row : Nat)
    (h : getCell p.1 row col ≠ 0) :
    sortStep col s p row = (setCell p.1 row col (s.getD p.2 0), p.2 + 1) := by
  unfold sortStep
  rw [if_pos]
  simpa using h

theorem sortStep_WF {col : Nat} {s : List Nat} {p : Grid × Nat} (h : gridWF p.1) (row : Nat) :
    gridWF ((sortStep col s p row).1) := by
  unfold sortStep
  split
  · exact gridWF_setCell h _ _ _
  · exact h

theorem sortStep_other {col : Nat} {s : List Nat} {p : Grid × Nat} {row : Nat} (r c : Nat)
    (h : r ≠ row ∨ c ≠ col) :
    getCell ((sortStep col s p row).1) r c = getCell p.1 r c := by
  unfold sortStep
  split
  · exact getCell_setCell_ne r c h _
  · rfl

theorem sorted_nodup_strict {s : List Nat} (hs : List.Sorted (fun a b => a ≤ b) s)
    (hnd : s.Nodup) {i j : Nat} (hij : i < j) (hj : j < s.length) :
    s.getD i 0 < s.getD j 0 := by
  have hp : List.Pairwise (fun a b => a ≤ b ∧ a ≠ b) s := List.Pairwise.and hs hnd
  rw [List.pairwise_iff_getElem] at hp
  have hle := hp i j (by omega) hj hij
  rw [List.getD_eq_getElem?_getD, List.getD_eq_getElem?_getD,
    List.getElem?_eq_getElem (by omega : i < s.length), List.getElem?_eq_getElem hj]
  simp only [Option.getD_some]
  exact Nat.lt_of_le_of_ne hle.1 hle.2

/-- Full behaviour of one `_sort_columns` iteration: well-formedness, other
columns untouched, the blank pattern of the column preserved, every new value
drawn from the old values of the column, and (when those values are distinct)
strict top-to-bottom increase. -/
theorem sortColumn_spec {g : Grid} (hWF : gridWF g) {col : Nat} (hc : col < 9) :
    gridWF (sortColumn g col) ∧
    (∀ r c, c ≠ col → getCell (sortColumn g col) r c = getCell g r c) ∧
    (∀ r, r < 3 → (getCell (sortColumn g col) r col = 0 ↔ getCell g r col = 0)) ∧
    (∀ r, r < 3 → getCell (sortColumn g col) r col ≠ 0 →
      getCell (sortColumn g col) r col ∈
        ((List.range 3).map (fun row => getCell g row col)).filter (fun v => v != 0)) ∧
    ((((List.range 3).map (fun row => getCell g row col)).filter (fun v => v != 0)).Nodup →
      ∀ r r2, r < r2 → r2 < 3 → getCell (sortColumn g col) r col ≠ 0 →
        getCell (sortColumn g col) r2 col ≠ 0 →
        getCell (sortColumn g col) r col < getCell (sortColumn g col) r2 col) := by
  set vals := ((List.range 3).map (fun row => getCell g row col)).filter (fun v => v != 0) with hv
  set s := vals.insertionSort (fun a b => a ≤ b) with hsdef
  have hperm : List.Perm s vals := List.perm_insertionSort _ _
  have hsorted : List.Sorted (fun a b => a ≤ b) s := List.sorted_insertionSort _ _
  have hslen : s.length = vals.length := hperm.length_eq
  have hsmem : ∀ i, i < s.length → s.getD i 0 ∈ vals := by
    intro i hi
    rw [List.getD_eq_getElem?_getD, List.getElem?_eq_getElem hi]
    exact hperm.mem_iff.mp (List.getElem_mem hi)
  have hsnz : ∀ i, i < s.length → s.getD i 0 ≠ 0 := by
    intro i hi
    have hm := hsmem i hi
    rw [hv, List.mem_filter] at hm
    simpa using hm.2
  have hstrict : vals.Nodup → ∀ i j, i < j → j < s.length → s.getD i 0 < s.getD j 0 :=
    fun hnd i j hij hj => sorted_nodup_strict hsorted (hperm.nodup_iff.mpr hnd) hij hj
  have hmap : (List.range 3).map (fun row => getCell g row col) =
      [getCell g 0 col, getCell g 1 col, getCell g 2 col] := rfl
  have hfold : sortColumn g col =
      (sortStep col s (sortStep col s (sortStep col s (g, 0) 0) 1) 2).1 := by
    rw [hsdef, hv]
    rfl
  rw [hfold]
  by_cases h0 : getCell g 0 col = 0 <;> by_cases h1 : getCell g 1 col = 0 <;>
    by_cases h2 : getCell g 2 col = 0
  · -- pattern (blank, blank, blank)
    rw [sortStep_zero (g, 0) 0 h0, sortStep_zero (g, 0) 1 h1, sortStep_zero (g, 0) 2 h2]
    refine ⟨hWF, fun r c _ => rfl, fun r _ => Iff.rfl, ?_, ?_⟩
    · intro r hr hne
      interval_cases r
      · exact absurd h0 hne
      · exact absurd h1 hne
      · exact absurd h2 hne
    · intro hnd r r2 hlt hr2 hne hne2
      exfalso
      interval_cases r2
      · omega
      · exact hne2 h1
      · exact hne2 h2
  · -- pattern (blank, blank, number)
    have hvals : vals = [getCell g 2 col] := by
      rw [hv, hmap, h0, h1]
      simp [List.filter_cons, bne_iff_ne, h2]
    have hslen1 : s.length = 1 := by rw [hslen, hvals]; rfl
    rw [sortStep_zero (g, 0) 0 h0, sortStep_zero (g, 0) 1 h1, sortStep_pos (g, 0) 2 h2]
    have hF0 : getCell (setCell g 2 col (s.getD 0 0)) 0 col = getCell g 0 col :=
      getCell_setCell_ne 0 col (Or.inl (by decide)) _
    have hF1 : getCell (setCell g 2 col (s.getD 0 0)) 1 col = getCell g 1 col :=
      getCell_setCell_ne 1 col (Or.inl (by decide)) _
    have hF2 : getCell (setCell g 2 col (s.getD 0 0)) 2 col = s.getD 0 0 :=
      getCell_setCell_self hWF (by decide) hc _
    refine ⟨gridWF_setCell hWF _ _ _,
      fun r c hcc => getCell_setCell_ne r c (Or.inr hcc) _, ?_, ?_, ?_⟩
    · intro r hr
      interval_cases r
      · rw [hF0]
      · rw [hF1]
      · rw [hF2]
        exact iff_of_false (hsnz 0 (by omega)) h2
    · intro r hr hne
      interval_cases r
      · rw [hF0] at hne
        exact absurd h0 hne
      · rw [hF1] at hne
        exact absurd h1 hne
      · rw [hF2]
        exact hsmem 0 (by omega)
    · intro hnd r r2 hlt hr2 hne hne2
      exfalso
      interval_cases r2
      · omega
      · rw [hF1] at hne2
        exact hne2 h1
      · interval_cases r
        · rw [hF0] at hne
          exact hne h0
        · rw [hF1] at hne
          exact hne h1
  · -- pattern (blank, number, blank)
    have hvals : vals = [getCell g 1 col] := by
      rw [hv, hmap, h0, h2]
      simp [List.filter_cons, bne_iff_ne, h1]
    have hslen1 : s.length = 1 := by rw [hslen, hvals]; rfl
    have h2g : getCell (setCell g 1 col (s.getD 0 0)) 2 col = getCell g 2 col :=
      getCell_setCell_ne 2 col (Or.inl (by decide)) _
    rw [sortStep_zero (g, 0) 0 h0, sortStep_pos (g, 0) 1 h1,
      sortStep_zero (setCell g 1 col (s.getD 0 0), 1) 2 (by rw [h2g]; exact h2)]
    have hF0 : getCell (setCell g 1 col (s.getD 0 0)) 0 col = getCell g 0 col :=
      getCell_setCell_ne 0 col (Or.inl (by decide)) _
    have hF1 : getCell (setCell g 1 col (s.getD 0 0)) 1 col = s.getD 0 0 :=
      getCell_setCell_self hWF (by decide) hc _
    refine ⟨gridWF_setCell hWF _ _ _,
      fun r c hcc => getCell_setCell_ne r c (Or.inr hcc) _, ?_, ?_, ?_⟩
    · intro r hr
      interval_cases r
      · rw [hF0]
      · rw [hF1]
        exact iff_of_false (hsnz 0 (by omega)) h1
      · rw [h2g]
    · intro r hr hne
      interval_cases r
      · rw [hF0] at hne
        exact absurd h0 hne
      · rw [hF1]
        exact hsmem 0 (by omega)
      · rw [h2g] at hne
        exact absurd h2 hne
    · intro hnd r r2 hlt hr2 hne hne2
      exfalso
      interval_cases r2
      · omega
      · interval_cases r
        rw [hF0] at hne
        exact hne h0
      · rw [h2g] at hne2
        exact hne2 h2
  · -- pattern (blank, number, number)
    have hvals : vals = [getCell g 1 col, getCell g 2 col] := by
      rw [hv, hmap, h0]
      simp [List.filter_cons, bne_iff_ne, h1, h2]
    have hslen2 : s.length = 2 := by rw [hslen, hvals]; rfl
    have hg1WF : gridWF (setCell g 1 col (s.getD 0 0)) := gridWF_setCell hWF _ _ _
    have h2g : getCell (setCell g 1 col (s.getD 0 0)) 2 col = getCell g 2 col :=
      getCell_setCell_ne 2 col (Or.inl (by decide)) _
    rw [sortStep_zero (g, 0) 0 h0, sortStep_pos (g, 0) 1 h1,
      sortStep_pos (setCell g 1 col (s.getD 0 0), 1) 2 (by rw [h2g]; exact h2)]
    have hF0 : getCell (setCell (setCell g 1 col (s.getD 0 0)) 2 col (s.getD 1 0)) 0 col =
        getCell g 0 col := by
      rw [getCell_setCell_ne 0 col (Or.inl (by decide)),
        getCell_setCell_ne 0 col (Or.inl (by decide))]
    have hF1 : getCell (setCell (setCell g 1 col (s.getD 0 0)) 2 col (s.getD 1 0)) 1 col =
        s.getD 0 0 := by
      rw [getCell_setCell_ne 1 col (Or.inl (by decide)),
        getCell_setCell_self hWF (by decide) hc]
    have hF2 : getCell (setCell (setCell g 1 col (s.getD 0 0)) 2 col (s.getD 1 0)) 2 col =
        s.getD 1 0 := getCell_setCell_self hg1WF (by decide) hc _
    refine ⟨gridWF_setCell hg1WF _ _ _,
      fun r c hcc => by
        rw [getCell_setCell_ne r c (Or.inr hcc), getCell_setCell_ne r c (Or.inr hcc)],
      ?_, ?_, ?_⟩
    · intro r hr
      interval_cases r
      · rw [hF0]
      · rw [hF1]
        exact iff_of_false (hsnz 0 (by omega)) h1
      · rw [hF2]
        exact iff_of_false (hsnz 1 (by omega)) h2
    · intro r hr hne
      interval_cases r
      · rw [hF0] at hne
        exact absurd h0 hne
      · rw [hF1]
        exact hsmem 0 (by omega)
      · rw [hF2]
        exact hsmem 1 (by omega)
    · intro hnd r r2 hlt hr2 hne hne2
      interval_cases r2
      · omega
      · interval_cases r
        rw [hF0] at hne
        exact absurd h0 hne
      · interval_cases r
        · rw [hF0] at hne
          exact absurd h0 hne
        · rw [hF1, hF2]
          exact hstrict hnd 0 1 (by omega) (by omega)
  · -- pattern (number, blank, blank)
    have hvals : vals = [getCell g 0 col] := by
      rw [hv, hmap, h1, h2]
      simp [List.filter_cons, bne_iff_ne, h0]
    have hslen1 : s.length = 1 := by rw [hslen, hvals]; rfl
    have h1g : getCell (setCell g 0 col (s.getD 0 0)) 1 col = getCell g 1 col :=
      getCell_setCell_ne 1 col (Or.inl (by decide)) _
    have h2g : getCell (setCell g 0 col (s.getD 0 0)) 2 col = getCell g 2 col :=
      getCell_setCell_ne 2 col (Or.inl (by decide)) _
    rw [sortStep_pos (g, 0) 0 h0,
      sortStep_zero (setCell g 0 col (s.getD 0 0), 1) 1 (by rw [h1g]; exact h1),
      sortStep_zero (setCell g 0 col (s.getD 0 0), 1) 2 (by rw [h2g]; exact h2)]
    have hF0 : getCell (setCell g 0 col (s.getD 0 0)) 0 col = s.getD 0 0 :=
      getCell_setCell_self hWF (by decide) hc _
    refine ⟨gridWF_setCell hWF _ _ _,
      fun r c hcc => getCell_setCell_ne r c (Or.inr hcc) _, ?_, ?_, ?_⟩
    · intro r hr
      interval_cases r
      · rw [hF0]
        exact iff_of_false (hsnz 0 (by omega)) h0
      · rw [h1g]
      · rw [h2g]
    · intro r hr hne
      interval_cases r
      · rw [hF0]
        exact hsmem 0 (by omega)
      · rw [h1g] at hne
        exact absurd h1 hne
      · rw [h2g] at hne
        exact absurd h2 hne
    · intro hnd r r2 hlt hr2 hne hne2
      exfalso
      interval_cases r2
      · omega
      · rw [h1g] at hne2
        exact hne2 h1
      · rw [h2g] at hne2
        exact hne2 h2
  · -- pattern (number, blank, number)
    have hvals : vals = [getCell g 0 col, getCell g 2 col] := by
      rw [hv, hmap, h1]
      simp [List.filter_cons, bne_iff_ne, h0, h2]
    have hslen2 : s.length = 2 := by rw [hslen, hvals]; rfl
    have hg1WF : gridWF (setCell g 0 col (s.getD 0 0)) := gridWF_setCell hWF _ _ _
    have h1g : getCell (setCell g 0 col (s.getD 0 0)) 1 col = getCell g 1 col :=
      getCell_setCell_ne 1 col (Or.inl (by decide)) _
    have h2g : getCell (setCell g 0 col (s.getD 0 0)) 2 col = getCell g 2 col :=
      getCell_setCell_ne 2 col (Or.inl (by decide)) _
    rw [sortStep_pos (g, 0) 0 h0,
      sortStep_zero (setCell g 0 col (s.getD 0 0), 1) 1 (by rw [h1g]; exact h1),
      sortStep_pos (setCell g 0 col (s.getD 0 0), 1) 2 (by rw [h2g]; exact h2)]
    have hF0 : getCell (setCell (setCell g 0 col (s.getD 0 0)) 2 col (s.getD 1 0)) 0 col =
        s.getD 0 0 := by
      rw [getCell_setCell_ne 0 col (Or.inl (by decide)),
        getCell_setCell_self hWF (by decide) hc]
    have hF1 : getCell (setCell (setCell g 0 col (s.getD 0 0)) 2 col (s.getD 1 0)) 1 col =
        getCell g 1 col := by
      rw [getCell_setCell_ne 1 col (Or.inl (by decide)), h1g]
    have hF2 : getCell (setCell (setCell g 0 col (s.getD 0 0)) 2 col (s.getD 1 0)) 2 col =
        s.getD 1 0 := getCell_setCell_self hg1WF (by decide) hc _
    refine ⟨gridWF_setCell hg1WF _ _ _,
      fun r c hcc => by
        rw [getCell_setCell_ne r c (Or.inr hcc), getCell_setCell_ne r c (Or.inr hcc)],
      ?_, ?_, ?_⟩
    · intro r hr
      interval_cases r
      · rw [hF0]
        exact iff_of_false (hsnz 0 (by omega)) h0
      · rw [hF1]
      · rw [hF2]
        exact iff_of_false (hsnz 1 (by omega)) h2
    · intro r hr hne
      interval_cases r
      · rw [hF0]
        exact hsmem 0 (by omega)
      · rw [hF1] at hne
        exact absurd h1 hne
      · rw [hF2]
        exact hsmem 1 (by omega)
    · intro hnd r r2 hlt hr2 hne hne2
      interval_cases r2
      · omega
      · exfalso
        rw [hF1] at hne2
        exact hne2 h1
      · interval_cases r
        · rw [hF0, hF2]
          exact hstrict hnd 0 1 (by omega) (by omega)
        · exfalso
          rw [hF1] at hne
          exact hne h1
  · -- pattern (number, number, blank)
    have hvals : vals = [getCell g 0 col, getCell g 1 col] := by
      rw [hv, hmap, h2]
      simp [List.filter_cons, bne_iff_ne, h0, h1]
    have hslen2 : s.length = 2 := by rw [hslen, hvals]; rfl
    have hg1WF : gridWF (setCell g 0 col (s.getD 0 0)) := gridWF_setCell hWF _ _ _
    have h1g : getCell (setCell g 0 col (s.getD 0 0)) 1 col = getCell g 1 col :=
      getCell_setCell_ne 1 col (Or.inl (by decide)) _
    have h2g : getCell (setCell (setCell g 0 col (s.getD 0 0)) 1 col (s.getD 1 0)) 2 col =
        getCell g 2 col := by
      rw [getCell_setCell_ne 2 col (Or.inl (by decide)),
        getCell_setCell_ne 2 col (Or.inl (by decide))]
    rw [sortStep_pos (g, 0) 0 h0,
      sortStep_pos (setCell g 0 col (s.getD 0 0), 1) 1 (by rw [h1g]; exact h1),
      sortStep_zero (setCell (setCell g 0 col (s.getD 0 0)) 1 col (s.getD 1 0), 2) 2
        (by rw [h2g]; exact h2)]
    have hF0 : getCell (setCell (setCell g 0 col (s.getD 0 0)) 1 col (s.getD 1 0)) 0 col =
        s.getD 0 0 := by
      rw [getCell_setCell_ne 0 col (Or.inl (by decide)),
        getCell_setCell_self hWF (by decide) hc]
    have hF1 : getCell (setCell (setCell g 0 col (s.getD 0 0)) 1 col (s.getD 1 0)) 1 col =
        s.getD 1 0 := getCell_setCell_self hg1WF (by decide) hc _
    refine ⟨gridWF_setCell hg1WF _ _ _,
      fun r c hcc => by
        rw [getCell_setCell_ne r c (Or.inr hcc), getCell_setCell_ne r c (Or.inr hcc)],
      ?_, ?_, ?_⟩
    · intro r hr
      interval_cases r
      · rw [hF0]
        exact iff_of_false (hsnz 0 (by omega)) h0
      · rw [hF1]
        exact iff_of_false (hsnz 1 (by omega)) h1
      · rw [h2g]
    · intro r hr hne
      interval_cases r
      · rw [hF0]
        exact hsmem 0 (by omega)
      · rw [hF1]
        exact hsmem 1 (by omega)
      · rw [h2g] at hne
        exact absurd h2 hne
    · intro hnd r r2 hlt hr2 hne hne2
      interval_cases r2
      · omega
      · interval_cases r
        rw [hF0, hF1]
        exact hstrict hnd 0 1 (by omega) (by omega)
      · exfalso
        rw [h2g] at hne2
        exact hne2 h2
  · -- pattern (number, number, number)
    have hvals : vals = [getCell g 0 col, getCell g 1 col, getCell g 2 col] := by
      rw [hv, hmap]
      simp [List.filter_cons, bne_iff_ne, h0, h1, h2]
    have hslen3 : s.length = 3 := by rw [hslen, hvals]; rfl
    have hg1WF : gridWF (setCell g 0 col (s.getD 0 0)) := gridWF_setCell hWF _ _ _
    have hg2WF : gridWF (setCell (setCell g 0 col (s.getD 0 0)) 1 col (s.getD 1 0)) :=
      gridWF_setCell hg1WF _ _ _
    have h1g : getCell (setCell g 0 col (s.getD 0 0)) 1 col = getCell g 1 col :=
      getCell_setCell_ne 1 col (Or.inl (by decide)) _
    have h2g : getCell (setCell (setCell g 0 col (s.getD 0 0)) 1 col (s.getD 1 0)) 2 col =
        getCell g 2 col := by
      rw [getCell_setCell_ne 2 col (Or.inl (by decide)),
        getCell_setCell_ne 2 col (Or.inl (by decide))]
    rw [sortStep_pos (g, 0) 0 h0,
      sortStep_pos (setCell g 0 col (s.getD 0 0), 1) 1 (by rw [h1g]; exact h1),
      sortStep_pos (setCell (setCell g 0 col (s.getD 0 0)) 1 col (s.getD 1 0), 2) 2
        (by rw [h2g]; exact h2)]
    have hF0 : getCell (setCell (setCell (setCell g 0 col (s.getD 0 0)) 1 col (s.getD 1 0))
        2 col (s.getD 2 0)) 0 col = s.getD 0 0 := by
      rw [getCell_setCell_ne 0 col (Or.inl (by decide)),
        getCell_setCell_ne 0 col (Or.inl (by decide)),
        getCell_setCell_self hWF (by decide) hc]
    have hF1 : getCell (setCell (setCell (setCell g 0 col (s.getD 0 0)) 1 col (s.getD 1 0))
        2 col (s.getD 2 0)) 1 col = s.getD 1 0 := by
      rw [getCell_setCell_ne 1 col (Or.inl (by decide)),
        getCell_setCell_self hg1WF (by decide) hc]
    have hF2 : getCell (setCell (setCell (setCell g 0 col (s.getD 0 0)) 1 col (s.getD 1 0))
        2 col (s.getD 2 0)) 2 col = s.getD 2 0 :=
      getCell_setCell_self hg2WF (by decide) hc _
    refine ⟨gridWF_setCell hg2WF _ _ _,
      fun r c hcc => by
        rw [getCell_setCell_ne r c (Or.inr hcc), getCell_setCell_ne r c (Or.inr hcc),
          getCell_setCell_ne r c (Or.inr hcc)],
      ?_, ?_, ?_⟩
    · intro r hr
      interval_cases r
      · rw [hF0]
        exact iff_of_false (hsnz 0 (by omega)) h0
      · rw [hF1]
        exact iff_of_false (hsnz 1 (by omega)) h1
      · rw [hF2]
        exact iff_of_false (hsnz 2 (by omega)) h2
    · intro r hr hne
      interval_cases r
      · rw [hF0]
        exact hsmem 0 (by omega)
      · rw [hF1]
        exact hsmem 1 (by omega)
      · rw [hF2]
        exact hsmem 2 (by omega)
    · intro hnd r r2 hlt hr2 hne hne2
      interval_cases r2
      · omega
      · interval_cases r
        rw [hF0, hF1]
        exact hstrict hnd 0 1 (by omega) (by omega)
      · interval_cases r
        · rw [hF0, hF2]
          exact hstrict hnd 0 2 (by omega) (by omega)
        · rw [hF1, hF2]
          exact hstrict hnd 1 2 (by omega) (by omega)

theorem mem_colVals {g : Grid} {c v : Nat}
    (h : v ∈ ((List.range 3).map (fun row => getCell g row c)).filter (fun x => x != 0)) :
    ∃ r0, r0 < 3 ∧ v = getCell g r0 c ∧ getCell g r0 c ≠ 0 := by
  rw [List.mem_filter] at h
  obtain ⟨hm, hnz⟩ := h
  obtain ⟨r0, hr0, he⟩ := List.mem_map.mp hm
  refine ⟨r0, List.mem_range.mp hr0, he.symm, ?_⟩
  rw [he]
  simpa using hnz

theorem colVals_nodup {g : Grid} {c : Nat}
    (h : ∀ r r2, r < 3 → r2 < 3 → r ≠ r2 → getCell g r c ≠ 0 → getCell g r2 c ≠ 0 →
      getCell g r c ≠ getCell g r2 c) :
    (((List.range 3).map (fun row => getCell g row c)).filter (fun x => x != 0)).Nodup := by
  have hmap : (List.range 3).map (fun row => getCell g row c) =
      [getCell g 0 c, getCell g 1 c, getCell g 2 c] := rfl
  rw [hmap]
  have hpw : List.Pairwise (fun a b => a ≠ 0 → b ≠ 0 → a ≠ b)
      [getCell g 0 c, getCell g 1 c, getCell g 2 c] := by
    refine List.Pairwise.cons ?_ (List.Pairwise.cons ?_ (List.pairwise_singleton _ _))
    · intro b hb
      rcases List.mem_cons.mp hb with rfl | hb2
      · exact fun ha hbb => h 0 1 (by omega) (by omega) (by omega) ha hbb
      · rcases List.mem_cons.mp hb2 with rfl | hb3
        · exact fun ha hbb => h 0 2 (by omega) (by omega) (by omega) ha hbb
        · simp at hb3
    · intro b hb
      rcases List.mem_cons.mp hb with rfl | hb2
      · exact fun ha hbb => h 1 2 (by omega) (by omega) (by omega) ha hbb
      · simp at hb2
  have hpf := hpw.filter (fun x => x != 0)
  refine List.Pairwise.imp_of_mem ?_ hpf
  intro a b ha hb hi
  rw [List.mem_filter] at ha hb
  exact hi (by simpa using ha.2) (by simpa using hb.2)

theorem foldl_sortColumn_pres :
    ∀ (cols : List Nat) (g : Grid), gridWF g → (∀ x ∈ cols, x < 9) → ∀ {c : Nat}, c ∉ cols →
      ∀ r, getCell (cols.foldl sortColumn g) r c = getCell g r c := by
  intro cols
  induction cols with
  | nil => intro g _ _ c _ r; rfl
  | cons c0 cs ih =>
    intro g hWF hb c hnotin r
    simp only [List.mem_cons, not_or] at hnotin
    have hc0 : c0 < 9 := hb c0 (List.mem_cons_self _ _)
    have hspec := sortColumn_spec hWF hc0
    rw [List.foldl_cons,
      ih _ hspec.1 (fun x hx => hb x (List.mem_cons_of_mem _ hx)) hnotin.2 r,
      hspec.2.1 r c hnotin.1]

set_option maxHeartbeats 2000000 in
theorem foldl_sortColumn_spec :
    ∀ (cols : List Nat) (g : Grid), gridWF g → cols.Nodup → (∀ x ∈ cols, x < 9) →
      gridWF (cols.foldl sortColumn g) ∧
      (∀ c ∈ cols, ∀ r, r < 3 →
        ((getCell (cols.foldl sortColumn g) r c = 0) ↔ (getCell g r c = 0))) ∧
      (∀ c ∈ cols, ∀ r, r < 3 → getCell (cols.foldl sortColumn g) r c ≠ 0 →
        ∃ r0, r0 < 3 ∧ getCell (cols.foldl sortColumn g) r c = getCell g r0 c ∧
          getCell g r0 c ≠ 0) ∧
      (∀ c ∈ cols, (∀ r r2, r < 3 → r2 < 3 → r ≠ r2 → getCell g r c ≠ 0 →
          getCell g r2 c ≠ 0 → getCell g r c ≠ getCell g r2 c) →
        ∀ r r2, r < r2 → r2 < 3 → getCell (cols.foldl sortColumn g) r c ≠ 0 →
          getCell (cols.foldl sortColumn g) r2 c ≠ 0 →
          getCell (cols.foldl sortColumn g) r c < getCell (cols.foldl sortColumn g) r2 c) := by
  intro cols
  induction cols with
  | nil =>
    intro g hWF _ _
    exact ⟨hWF, fun c hc => by simp at hc, fun c hc => by simp at hc, fun c hc => by simp at hc⟩
  | cons c0 cs ih =>
    intro g hWF hnd hb
    have hc0 : c0 < 9 := hb c0 (List.mem_cons_self _ _)
    have hnotin : c0 ∉ cs := (List.nodup_cons.mp hnd).1
    have hbtail : ∀ x ∈ cs, x < 9 := fun x hx => hb x (List.mem_cons_of_mem _ hx)
    obtain ⟨sWF, sother, szero, smem, sstrict⟩ := sortColumn_spec hWF hc0
    obtain ⟨iWF, izero, imem, istrict⟩ := ih (sortColumn g c0) sWF (List.nodup_cons.mp hnd).2 hbtail
    have hpres : ∀ r, getCell (cs.foldl sortColumn (sortColumn g c0)) r c0 =
        getCell (sortColumn g c0) r c0 :=
      fun r => foldl_sortColumn_pres cs _ sWF hbtail hnotin r
    rw [List.foldl_cons]
    refine ⟨iWF, ?_, ?_, ?_⟩
    · intro c hc r hr
      rcases List.mem_cons.mp hc with rfl | hcs
      · rw [hpres r]
        exact szero r hr
      · have hne : c ≠ c0 := fun h => hnotin (h ▸ hcs)
        rw [izero c hcs r hr, sother r c hne]
    · intro c hc r hr hnz
      rcases List.mem_cons.mp hc with rfl | hcs
      · rw [hpres r] at hnz ⊢
        obtain ⟨r0, hr0, hval, hnz0⟩ := mem_colVals (smem r hr hnz)
        exact ⟨r0, hr0, hval, hnz0⟩
      · have hne : c ≠ c0 := fun h => hnotin (h ▸ hcs)
        obtain ⟨r0, hr0, hval, hnz0⟩ := imem c hcs r hr hnz
        rw [sother r0 c hne] at hval hnz0
        exact ⟨r0, hr0, hval, hnz0⟩
    · intro c hc hdist r r2 hlt hr2 hnz hnz2
      rcases List.mem_cons.mp hc with rfl | hcs
      · rw [hpres r] at hnz ⊢
        rw [hpres r2] at hnz2 ⊢
        exact sstrict (colVals_nodup hdist) r r2 hlt hr2 hnz hnz2
      · have hne : c ≠ c0 := fun h => hnotin (h ▸ hcs)
        have hdist2 : ∀ r3 r4, r3 < 3 → r4 < 3 → r3 ≠ r4 →
            getCell (sortColumn g c0) r3 c ≠ 0 → getCell (sortColumn g c0) r4 c ≠ 0 →
            getCell (sortColumn g c0) r3 c ≠ getCell (sortColumn g c0) r4 c := by
          intro r3 r4 h3 h4 h34 hz3 hz4
          rw [sother r3 c hne] at hz3 ⊢
          rw [sother r4 c hne] at hz4 ⊢
          exact hdist r3 r4 h3 h4 h34 hz3 hz4
        exact istrict c hcs hdist2 r r2 hlt hr2 hnz hnz2

theorem sort_columns_spec {g : Grid} (hWF : gridWF g) :
    gridWF (sort_columns g) ∧
    (∀ c, c < 9 → ∀ r, r < 3 →
      ((getCell (sort_columns g) r c = 0) ↔ (getCell g r c = 0))) ∧
    (∀ c, c < 9 → ∀ r, r < 3 → getCell (sort_columns g) r c ≠ 0 →
      ∃ r0, r0 < 3 ∧ getCell (sort_columns g) r c = getCell g r0 c ∧ getCell g r0 c ≠ 0) ∧
    (∀ c, c < 9 → (∀ r r2, r < 3 → r2 < 3 → r ≠ r2 → getCell g r c ≠ 0 →
        getCell g r2 c ≠ 0 → getCell g r c ≠ getCell g r2 c) →
      ∀ r r2, r < r2 → r2 < 3 → getCell (sort_columns g) r c ≠ 0 →
        getCell (sort_columns g) r2 c ≠ 0 →
        getCell (sort_columns g) r c < getCell (sort_columns g) r2 c) := by
  obtain ⟨hWF2, hzero, hmem, hstrict⟩ := foldl_sortColumn_spec (List.range 9) g hWF
    (List.nodup_range _) (fun x hx => List.mem_range.mp hx)
  exact ⟨hWF2, fun c hc => hzero c (List.mem_range.mpr hc),
    fun c hc => hmem c (List.mem_range.mpr hc),
    fun c hc => hstrict c (List.mem_range.mpr hc)⟩

theorem rowCount_full {g : Grid} (hWF : gridWF g) {r : Nat} (hr : r < 3)
    (h : ∀ c, c < 9 → getCell g r c ≠ 0) : rowCount g r = 9 := by
  have hlen : (g.getD r []).length = 9 := hWF.2 r hr
  unfold rowCount
  rw [← hlen]
  rw [List.countP_eq_length]
  intro a ha
  obtain ⟨i, hi, he⟩ := List.mem_iff_getElem.mp ha
  have : getCell g r i = a := by
    unfold getCell
    rw [List.getD_eq_getElem?_getD, List.getElem?_eq_getElem hi, he]
    rfl
  have hne := h i (by omega)
  rw [this] at hne
  simpa using hne

/-- Complete behaviour of `BritishBingoCard.generate` when every column keeps at
least 3 available numbers after exclusions (true of `EXCLUDED_NUMBERS`): every
row ends with exactly 5 numbers, every number comes from its column's available
set, and each column is strictly increasing top to bottom. -/
theorem generate_spec {ex : List Nat} (t : Tape)
    (hlen : ∀ c, c < 9 → 3 ≤ (availableNumbers ex c).length)
    (hpos : ∀ c, c < 9 → ∀ v ∈ availableNumbers ex c, v ≠ 0) :
    gridWF (generate ex t) ∧
    (∀ r, r < 3 → rowCount (generate ex t) r = 5) ∧
    (∀ r c, r < 3 → c < 9 → getCell (generate ex t) r c = 0 ∨
      getCell (generate ex t) r c ∈ availableNumbers ex c) ∧
    (∀ c, c < 9 → ∀ r r2, r < r2 → r2 < 3 → getCell (generate ex t) r c ≠ 0 →
      getCell (generate ex t) r2 c ≠ 0 →
      getCell (generate ex t) r c < getCell (generate ex t) r2 c) := by
  have hWF1 : gridWF (columnPass ex t) := gridWF_columnPass ex t
  have hcp : ∀ c, c < 9 → ∀ r, r < 3 →
      getCell (columnPass ex t) r c ∈ availableNumbers ex c ∧
      ∀ r2, r2 < 3 → r2 ≠ r →
        getCell (columnPass ex t) r2 c ≠ getCell (columnPass ex t) r c :=
    fun c hc r hr => columnPass_spec t hlen hc hr
  have hcp_nz : ∀ r c, r < 3 → c < 9 → getCell (columnPass ex t) r c ≠ 0 :=
    fun r c hr hc => hpos c hc _ (hcp c hc r hr).1
  have hfull : ∀ r, r < 3 → 5 ≤ rowCount (columnPass ex t) r := by
    intro r hr
    rw [rowCount_full hWF1 hr (fun c hc => hcp_nz r c hr hc)]
    omega
  obtain ⟨hWF2, hcount2, hshrink⟩ := balance_rows_spec hWF1 hfull
  have hbal : ∀ r c, r < 3 → c < 9 →
      getCell (balance_rows ex t (columnPass ex t)) r c = 0 ∨
      getCell (balance_rows ex t (columnPass ex t)) r c = getCell (columnPass ex t) r c :=
    fun r c _ _ => hshrink r c
  have hdist2 : ∀ c, c < 9 → ∀ r r2, r < 3 → r2 < 3 → r ≠ r2 →
      getCell (balance_rows ex t (columnPass ex t)) r c ≠ 0 →
      getCell (balance_rows ex t (columnPass ex t)) r2 c ≠ 0 →
      getCell (balance_rows ex t (columnPass ex t)) r c ≠
        getCell (balance_rows ex t (columnPass ex t)) r2 c := by
    intro c hc r r2 hr hr2 hne hz hz2
    rcases hshrink r c with h | h
    · exact absurd h hz
    rcases hshrink r2 c with h2 | h2
    · exact absurd h2 hz2
    rw [h, h2]
    exact fun he => (hcp c hc r hr).2 r2 hr2 (Ne.symm hne) he.symm
  obtain ⟨hWF3, hzero3, hmem3, hstrict3⟩ := sort_columns_spec hWF2
  have hgen : generate ex t = sort_columns (balance_rows ex t (columnPass ex t)) := rfl
  rw [hgen]
  refine ⟨hWF3, ?_, ?_, ?_⟩
  · intro r hr
    rw [rowCount_congr hWF2 hWF3 hr (fun c hc => hzero3 c hc r hr)]
    exact hcount2 r hr
  · intro r c hr hc
    by_cases hz : getCell (sort_columns (balance_rows ex t (columnPass ex t))) r c = 0
    · exact Or.inl hz
    · obtain ⟨r0, hr0, hval, hnz0⟩ := hmem3 c hc r hr hz
      rcases hshrink r0 c with h | h
      · exact absurd h hnz0
      · right
        rw [hval, h]
        exact (hcp c hc r0 hr0).1
  · intro c hc r r2 hlt hr2 hnz hnz2
    exact hstrict3 c hc (hdist2 c hc) r r2 hlt hr2 hnz hnz2

/-! ### Degenerate configurations: a column with no available numbers -/

theorem gridWF_balance_rows {ex : List Nat} {t : Tape} {g : Grid} (hWF : gridWF g) :
    gridWF (balance_rows ex t g) := by
  rw [balance_rows_eq]
  exact gridWF_balanceRow (gridWF_balanceRow (gridWF_balanceRow hWF 0) 1) 2

theorem gridWF_sort_columns {g : Grid} (hWF : gridWF g) : gridWF (sort_columns g) :=
  (sort_columns_spec hWF).1

theorem gridWF_generate (ex : List Nat) (t : Tape) : gridWF (generate ex t) :=
  gridWF_sort_columns (gridWF_balance_rows (gridWF_columnPass ex t))

theorem balanceFill_zero_col {ex : List Nat} {t : Tape} {rowIdx : Nat} {g : Grid} {c : Nat}
    (hav : availableNumbers ex c = []) (col : Nat)
    (hz : ∀ r, r < 3 → getCell g r c = 0) :
    ∀ r, r < 3 → getCell (balanceFill ex t rowIdx g col) r c = 0 := by
  intro r hr
  by_cases hcc : col = c
  · subst hcc
    have hemp : ∀ used : List Nat,
        ((rangeList (get_column_range col).1 (get_column_range col).2).filter
          (fun n => !used.contains n && !ex.contains n)) = [] := by
      intro used
      rw [List.eq_nil_iff_forall_not_mem]
      intro n hn
      rw [List.mem_filter] at hn
      have hdef : availableNumbers ex col =
          (rangeList (column_ranges.getD col (0, 0)).1
            (column_ranges.getD col (0, 0)).2).filter (fun n => !ex.contains n) := rfl
      have hmem : n ∈ availableNumbers ex col := by
        rw [hdef, List.mem_filter]
        refine ⟨hn.1, ?_⟩
        have hb := hn.2
        rw [Bool.and_eq_true] at hb
        exact hb.2
      rw [hav] at hmem
      simp at hmem
    simp only [balanceFill]
    rw [hemp]
    simpa using hz r hr
  · simp only [balanceFill]
    split
    · exact hz r hr
    · rw [getCell_setCell_ne _ _ (Or.inr (fun h => hcc h.symm))]
      exact hz r hr

theorem balanceRow_zero_col {ex : List Nat} (t : Tape) {g : Grid} {c : Nat}
    (hWF : gridWF g) (hc : c < 9) (hav : availableNumbers ex c = []) (rowIdx : Nat)
    (hz : ∀ r, r < 3 → getCell g r c = 0) :
    ∀ r, r < 3 → getCell (balanceRow ex t g rowIdx) r c = 0 := by
  have hdef : ∀ (cols : List Nat) (g2 : Grid), (∀ r, r < 3 → getCell g2 r c = 0) →
      ∀ r, r < 3 → getCell (cols.foldl (balanceFill ex t rowIdx) g2) r c = 0 := by
    intro cols
    induction cols with
    | nil => exact fun g2 h => h
    | cons c0 cs ih => exact fun g2 h => ih _ (balanceFill_zero_col hav c0 h)
  have hsz : ∀ (cols : List Nat) (g2 : Grid), gridWF g2 → (∀ r, r < 3 → getCell g2 r c = 0) →
      ∀ r, r < 3 → getCell (cols.foldl (fun g3 col => setCell g3 rowIdx col 0) g2) r c = 0 := by
    intro cols
    induction cols with
    | nil => exact fun g2 _ h => h
    | cons c0 cs ih =>
      intro g2 hWF2 h
      refine ih _ (gridWF_setCell hWF2 _ _ _) ?_
      intro r hr
      by_cases hcase : r = rowIdx ∧ c = c0
      · obtain ⟨he1, he2⟩ := hcase
        subst he1
        subst he2
        exact getCell_setCell_self hWF2 hr hc 0
      · rw [getCell_setCell_ne _ _ (not_and_or.mp hcase)]
        exact h r hr
  intro r hr
  simp only [balanceRow]
  split
  · exact hdef _ _ hz r hr
  split
  · exact hsz _ _ hWF hz r hr
  · exact hz r hr

theorem balance_rows_zero_col {ex : List Nat} (t : Tape) {g : Grid} {c : Nat}
    (hWF : gridWF g) (hc : c < 9) (hav : availableNumbers ex c = [])
    (hz : ∀ r, r < 3 → getCell g r c = 0) :
    ∀ r, r < 3 → getCell (balance_rows ex t g) r c = 0 := by
  rw [balance_rows_eq]
  have h1 := balanceRow_zero_col t hWF hc hav 0 hz
  have hW1 : gridWF (balanceRow ex t g 0) := gridWF_balanceRow hWF 0
  have h2 := balanceRow_zero_col t hW1 hc hav 1 h1
  have hW2 : gridWF (balanceRow ex t (balanceRow ex t g 0) 1) := gridWF_balanceRow hW1 1
  exact balanceRow_zero_col t hW2 hc hav 2 h2

/-- When a column keeps no available number after exclusions, `generate` does
not fail: it returns a grid whose starved column is entirely blank. -/
theorem generate_empty_avail {ex : List Nat} (t : Tape) {c : Nat} (hc : c < 9)
    (hav : availableNumbers ex c = []) :
    ∀ r, r < 3 → getCell (generate ex t) r c = 0 := by
  intro r hr
  have hz1 : ∀ r2, r2 < 3 → getCell (columnPass ex t) r2 c = 0 :=
    fun r2 h2 => columnPass_empty_avail t hav r2 h2
  have hz2 := balance_rows_zero_col t (gridWF_columnPass ex t) hc hav hz1
  have hWF2 : gridWF (balance_rows ex t (columnPass ex t)) :=
    gridWF_balance_rows (gridWF_columnPass ex t)
  show getCell (sort_columns (balance_rows ex t (columnPass ex t))) r c = 0
  exact ((sort_columns_spec hWF2).2.1 c hc r hr).mpr (hz2 r hr)

/-! ### The QR payload encoder -/

theorem qr_foldl_ok : ∀ (card : List Nat) (acc : List Nat), (∀ v ∈ card, v < 256) →
    card.foldl (fun acc v => acc.bind (fun bs => (pack_u8 v).map (fun b => bs ++ b)))
      (some acc) = some (acc ++ card) := by
  intro card
  induction card with
  | nil =>
    intro acc _
    simp
  | cons v vs ih =>
    intro acc h
    rw [List.foldl_cons]
    have hv : v < 256 := h v (List.mem_cons_self _ _)
    have hstep : (some acc).bind
        (fun bs => (pack_u8 v).map (fun b => bs ++ b)) = some (acc ++ [v]) := by
      simp [pack_u8, hv]
    rw [hstep, ih _ (fun x hx => h x (List.mem_cons_of_mem _ hx))]
    simp

theorem qr_payload_eq {ticket_id : Nat} (hid : ticket_id < 65536) (card : List Nat)
    (h : ∀ v ∈ card, v < 256) :
    qr_payload ticket_id card =
      some ([ticket_id % 256, ticket_id / 256] ++ card) := by
  unfold qr_payload pack_u16_le
  rw [if_pos hid]
  exact qr_foldl_ok card _ h

theorem decode_qr_payload {ticket_id : Nat} (hid : ticket_id < 65536) (card : List Nat)
    (hlen : card.length = 27) (h : ∀ v ∈ card, v < 256) :
    (qr_payload ticket_id card).bind decode_payload = some (ticket_id, card) := by
  rw [qr_payload_eq hid card h]
  show (if card.length = 27 then
      some (ticket_id % 256 + 256 * (ticket_id / 256), card) else none) = some (ticket_id, card)
  rw [if_pos hlen, Nat.mod_add_div]

theorem to_flat_list_length {g : Grid} (hWF : gridWF g) : (to_flat_list g).length = 27 := by
  obtain ⟨a, b, c, rfl⟩ := List.length_eq_three.mp hWF.1
  have ha : a.length = 9 := hWF.2 0 (by omega)
  have hb : b.length = 9 := hWF.2 1 (by omega)
  have hc : c.length = 9 := hWF.2 2 (by omega)
  simp [to_flat_list, ha, hb, hc]

theorem to_flat_list_getD {g : Grid} (hWF : gridWF g) {r c : Nat} (hr : r < 3) (hc : c < 9) :
    (to_flat_list g).getD (r * 9 + c) 0 = getCell g r c := by
  obtain ⟨a, b, c2, rfl⟩ := List.length_eq_three.mp hWF.1
  have ha : a.length = 9 := hWF.2 0 (by omega)
  have hb : b.length = 9 := hWF.2 1 (by omega)
  have hflat : to_flat_list [a, b, c2] = a ++ (b ++ c2) := by
    simp [to_flat_list]
  rw [hflat]
  interval_cases r
  · rw [show 0 * 9 + c = c from by omega, List.getD_append _ _ _ _ (by omega)]
    rfl
  · rw [List.getD_append_right _ _ _ _ (by omega)]
    rw [show 1 * 9 + c - a.length = c from by omega]
    rw [List.getD_append _ _ _ _ (by omega)]
    rfl
  · rw [List.getD_append_right _ _ _ _ (by omega)]
    rw [show 2 * 9 + c - a.length = 9 + c from by omega]
    rw [List.getD_append_right _ _ _ _ (by omega)]
    rw [show 9 + c - b.length = c from by omega]
    rfl

/-! ### Ticket id allocation -/

theorem ticket_ids_spec (t : Nat → Nat) (n : Nat) :
    (ticket_ids t n).Nodup ∧ (∀ x ∈ ticket_ids t n, 1000 ≤ x ∧ x < 10000) ∧
      (ticket_ids t n).length = min n 9000 := by
  refine ⟨?_, ?_, ?_⟩
  · exact (List.take_sublist _ _).nodup (shuffle_nodup (List.nodup_range' _ _))
  · intro x hx
    have := shuffle_mem.mp (List.take_subset _ _ hx)
    rw [List.mem_range'_1] at this
    omega
  · rw [ticket_ids, List.length_take, shuffle_length, List.length_range']

theorem build_batch_ids (t : Nat → Nat) (ts : Nat → Tape) (n : Nat) :
    (build_batch t ts n).map Prod.fst = ticket_ids t n := by
  unfold build_batch
  rw [List.map_map]
  have hcomp : (Prod.fst ∘ fun p : Nat × Nat =>
      (p.2, to_flat_list (generate EXCLUDED_NUMBERS (ts p.1)))) = Prod.snd := rfl
  rw [hcomp, List.enum_map_snd]

theorem build_batch_length (t : Nat → Nat) (ts : Nat → Tape) (n : Nat) :
    (build_batch t ts n).length = min n 9000 := by
  unfold build_batch
  rw [List.length_map, List.enum_length]
  exact (ticket_ids_spec t n).2.2

/-! ### Facts about the configured exclusion set, by evaluation -/

theorem excluded_avail_len :
    ∀ c, c < 9 → 3 ≤ (availableNumbers EXCLUDED_NUMBERS c).length := by decide

theorem excluded_avail_pos :
    ∀ c, c < 9 → ∀ v ∈ availableNumbers EXCLUDED_NUMBERS c, v ≠ 0 := by decide

theorem excluded_avail_range : ∀ c, c < 9 → ∀ v ∈ availableNumbers EXCLUDED_NUMBERS c,
    (column_ranges.getD c (0, 0)).1 ≤ v ∧ v ≤ (column_ranges.getD c (0, 0)).2 := by decide

theorem excluded_avail_disjoint : ∀ c, c < 9 → ∀ c2, c2 < 9 → c = c2 ∨
    ∀ v ∈ availableNumbers EXCLUDED_NUMBERS c,
      v ∉ availableNumbers EXCLUDED_NUMBERS c2 := by decide

theorem excluded_avail_not_excl : ∀ c, c < 9 →
    ∀ v ∈ availableNumbers EXCLUDED_NUMBERS c, v ∉ EXCLUDED_NUMBERS := by decide

theorem countP_zero_split (l : List Nat) :
    l.countP (fun cell => cell == 0) + l.countP (fun cell => cell != 0) = l.length := by
  induction l with
  | nil => rfl
  | cons x xs ih =>
    simp only [List.countP_cons, List.length_cons]
    by_cases hx : x = 0 <;> simp [hx] <;> omega

/-! ### The claims -/

/-- C1: for every tape, i.e. for every run of `BritishBingoCard.generate`, every
one of the 3 rows of the returned grid holds exactly 5 non-zero cells and
exactly 4 zero cells.  Under `EXCLUDED_NUMBERS = [20, 72]` every column keeps at
least 3 available numbers, so the shortfall edge case never occurs and the
property holds unconditionally. -/
theorem C1_five_numbers_four_blanks_per_row (t : Tape) :
    ∀ r, r < 3 →
      rowCount (generate EXCLUDED_NUMBERS t) r = 5 ∧
      ((generate EXCLUDED_NUMBERS t).getD r []).countP (fun cell => cell == 0) = 4 := by
  intro r hr
  obtain ⟨hWF, hcount, _, _⟩ := generate_spec t excluded_avail_len excluded_avail_pos
  have h5 := hcount r hr
  refine ⟨h5, ?_⟩
  have hsplit := countP_zero_split ((generate EXCLUDED_NUMBERS t).getD r [])
  have hlen : ((generate EXCLUDED_NUMBERS t).getD r []).length = 9 := hWF.2 r hr
  unfold rowCount at h5
  omega

theorem C1_witness :
    rowCount (generate EXCLUDED_NUMBERS trivTape) 1 = 5 ∧
    ((generate EXCLUDED_NUMBERS trivTape).getD 1 []).countP (fun cell => cell == 0) = 4 :=
  C1_five_numbers_four_blanks_per_row trivTape 1 (by decide)

/-- C2: in every generated grid, every non-zero value of column `c` lies in that
column's fixed range ((1,9), (10,19), (20,29), (30,39), (40,49), (50,59),
(60,69), (70,79), (80,90)), and the non-zero values of a column are strictly
increasing from row 0 to row 2. -/
theorem C2_column_ranges_and_sorted (t : Tape) :
    ∀ c, c < 9 → ∀ r, r < 3 →
      (getCell (generate EXCLUDED_NUMBERS t) r c ≠ 0 →
        (column_ranges.getD c (0, 0)).1 ≤ getCell (generate EXCLUDED_NUMBERS t) r c ∧
          getCell (generate EXCLUDED_NUMBERS t) r c ≤ (column_ranges.getD c (0, 0)).2) ∧
      (∀ r2, r < r2 → r2 < 3 → getCell (generate EXCLUDED_NUMBERS t) r c ≠ 0 →
        getCell (generate EXCLUDED_NUMBERS t) r2 c ≠ 0 →
        getCell (generate EXCLUDED_NUMBERS t) r c <
          getCell (generate EXCLUDED_NUMBERS t) r2 c) := by
  intro c hc r hr
  obtain ⟨hWF, _, hmem, hsort⟩ := generate_spec t excluded_avail_len excluded_avail_pos
  constructor
  · intro hnz
    rcases hmem r c hr hc with h | h
    · exact absurd h hnz
    · exact excluded_avail_range c hc _ h
  · intro r2 hlt hr2 hnz hnz2
    exact hsort c hc r r2 hlt hr2 hnz hnz2

set_option maxRecDepth 8000 in
theorem C2_witness :
    ((column_ranges.getD 4 (0, 0)).1 ≤ getCell (generate EXCLUDED_NUMBERS trivTape) 0 4 ∧
      getCell (generate EXCLUDED_NUMBERS trivTape) 0 4 ≤ (column_ranges.getD 4 (0, 0)).2) ∧
    getCell (generate EXCLUDED_NUMBERS trivTape) 0 4 <
      getCell (generate EXCLUDED_NUMBERS trivTape) 1 4 :=
  ⟨(C2_column_ranges_and_sorted trivTape 4 (by decide) 0 (by decide)).1 (by decide),
    (C2_column_ranges_and_sorted trivTape 4 (by decide) 0 (by decide)).2 1 (by decide)
      (by decide) (by decide) (by decide)⟩

/-- C3: no non-zero value appears in two different cells of a generated grid:
if two cells carry the same non-zero value they are the same cell. -/
theorem C3_no_duplicate_numbers (t : Tape) :
    ∀ r c r2 c2, r < 3 → c < 9 → r2 < 3 → c2 < 9 →
      getCell (generate EXCLUDED_NUMBERS t) r c ≠ 0 →
      getCell (generate EXCLUDED_NUMBERS t) r c =
        getCell (generate EXCLUDED_NUMBERS t) r2 c2 →
      r = r2 ∧ c = c2 := by
  intro r c r2 c2 hr hc hr2 hc2 hnz heq
  obtain ⟨hWF, _, hmem, hsort⟩ := generate_spec t excluded_avail_len excluded_avail_pos
  have hnz2 : getCell (generate EXCLUDED_NUMBERS t) r2 c2 ≠ 0 := heq ▸ hnz
  have hv1 : getCell (generate EXCLUDED_NUMBERS t) r c ∈
      availableNumbers EXCLUDED_NUMBERS c := (hmem r c hr hc).resolve_left (fun h => hnz h)
  have hv2 : getCell (generate EXCLUDED_NUMBERS t) r2 c2 ∈
      availableNumbers EXCLUDED_NUMBERS c2 :=
    (hmem r2 c2 hr2 hc2).resolve_left (fun h => hnz2 h)
  have hcc : c = c2 := by
    rcases excluded_avail_disjoint c hc c2 hc2 with h | h
    · exact h
    · exact absurd (heq.symm ▸ hv2) (h _ hv1)
  subst hcc
  refine ⟨?_, rfl⟩
  rcases Nat.lt_trichotomy r r2 with h | h | h
  · have := hsort c hc r r2 h hr2 hnz hnz2
    omega
  · exact h
  · have := hsort c hc r2 r h hr hnz2 hnz
    omega

set_option maxRecDepth 8000 in
theorem C3_witness : (0 : Nat) = 0 ∧ (4 : Nat) = 4 :=
  C3_no_duplicate_numbers trivTape 0 4 0 4 (by decide) (by decide) (by decide) (by decide)
    (by decide) rfl

/-- C4: under the configured exclusion set `EXCLUDED_NUMBERS = [20, 72]`, no
excluded number appears in any cell of a generated grid. -/
theorem C4_excluded_numbers_absent (t : Tape) :
    ∀ r c, r < 3 → c < 9 →
      getCell (generate EXCLUDED_NUMBERS t) r c ∉ EXCLUDED_NUMBERS := by
  intro r c hr hc
  obtain ⟨_, _, hmem, _⟩ := generate_spec t excluded_avail_len excluded_avail_pos
  rcases hmem r c hr hc with h | h
  · rw [h]
    decide
  · exact excluded_avail_not_excl c hc _ h

theorem C4_witness :
    getCell (generate EXCLUDED_NUMBERS trivTape) 2 7 ∉ EXCLUDED_NUMBERS :=
  C4_excluded_numbers_absent trivTape 2 7 (by decide) (by decide)

/-- C10: under `EXCLUDED_NUMBERS = [20, 72]` every column keeps at least 3
available numbers, so the per-column pass fills all 27 cells; every row then
counts 9 numbers before balancing, hence the deficit branch of `_balance_rows`
(the only source of the shortfall case) is unreachable and every generated grid
has exactly 5 numbers per row unconditionally. -/
theorem C10_deficit_branch_unreachable (t : Tape) :
    (∀ c, c < 9 → 3 ≤ (availableNumbers EXCLUDED_NUMBERS c).length) ∧
    (∀ r c, r < 3 → c < 9 → getCell (columnPass EXCLUDED_NUMBERS t) r c ≠ 0) ∧
    (∀ r, r < 3 → rowCount (columnPass EXCLUDED_NUMBERS t) r = 9) ∧
    (∀ r, r < 3 → rowCount (generate EXCLUDED_NUMBERS t) r = 5) := by
  have hnz : ∀ r c, r < 3 → c < 9 → getCell (columnPass EXCLUDED_NUMBERS t) r c ≠ 0 :=
    fun r c hr hc =>
      excluded_avail_pos c hc _ (columnPass_spec t excluded_avail_len hc hr).1
  refine ⟨excluded_avail_len, hnz, ?_, ?_⟩
  · intro r hr
    exact rowCount_full (gridWF_columnPass _ _) hr (fun c hc => hnz r c hr hc)
  · exact (generate_spec t excluded_avail_len excluded_avail_pos).2.1

set_option maxRecDepth 8000 in
theorem C10_witness :
    3 ≤ (availableNumbers EXCLUDED_NUMBERS 2).length ∧
    getCell (columnPass EXCLUDED_NUMBERS trivTape) 0 0 ≠ 0 ∧
    rowCount (columnPass EXCLUDED_NUMBERS trivTape) 0 = 9 ∧
    rowCount (generate EXCLUDED_NUMBERS trivTape) 2 = 5 :=
  ⟨(C10_deficit_branch_unreachable trivTape).1 2 (by decide),
    (C10_deficit_branch_unreachable trivTape).2.1 0 0 (by decide) (by decide),
    (C10_deficit_branch_unreachable trivTape).2.2.1 0 (by decide),
    (C10_deficit_branch_unreachable trivTape).2.2.2 2 (by decide)⟩

/-- C5: for every 16-bit ticket id and well-formed 27-cell card, the encoder of
`generate_qr_code` produces exactly 29 bytes: the id little-endian in the first
2 bytes, then the 27 cells one byte each, `to_flat_list` supplying them in
row-major order; in particular `encode(1234, card with cell 0 = 7, rest blank)`
is `[0xD2, 0x04, 0x07]` followed by 26 zero bytes. -/
theorem C5_encoder_payload_layout :
    (∀ ticket_id card, ticket_id < 65536 → card.length = 27 → (∀ v ∈ card, v < 256) →
      qr_payload ticket_id card = some ([ticket_id % 256, ticket_id / 256] ++ card) ∧
      ([ticket_id % 256, ticket_id / 256] ++ card).length = 29) ∧
    (∀ g : Grid, gridWF g → (to_flat_list g).length = 27 ∧
      ∀ r c, r < 3 → c < 9 → (to_flat_list g).getD (r * 9 + c) 0 = getCell g r c) ∧
    qr_payload 1234 (7 :: List.replicate 26 0) =
      some (210 :: 4 :: 7 :: List.replicate 26 0) := by
  refine ⟨?_, ?_, by decide⟩
  · intro ticket_id card hid hlen h
    refine ⟨qr_payload_eq hid card h, ?_⟩
    simp [hlen]
  · intro g hWF
    exact ⟨to_flat_list_length hWF, fun r c hr hc => to_flat_list_getD hWF hr hc⟩

theorem C5_witness :
    qr_payload 1234 (7 :: List.replicate 26 0) =
      some ([1234 % 256, 1234 / 256] ++ (7 :: List.replicate 26 0)) ∧
    ([1234 % 256, 1234 / 256] ++ (7 :: List.replicate 26 0)).length = 29 :=
  C5_encoder_payload_layout.1 1234 (7 :: List.replicate 26 0) (by decide) (by decide)
    (by decide)

/-- C6: decoding (2 bytes little-endian, then 27 row-major bytes, as the spec
prescribes for the scanner) recovers exactly the encoded pair:
`decode(encode(id, card)) = (id, card)` for every valid input. -/
theorem C6_encode_decode_roundtrip :
    ∀ ticket_id card, ticket_id < 65536 → card.length = 27 → (∀ v ∈ card, v < 256) →
      (qr_payload ticket_id card).bind decode_payload = some (ticket_id, card) :=
  fun _ card _ hlen h => decode_qr_payload (by assumption) card hlen h

theorem C6_witness :
    (qr_payload 1234 (7 :: List.replicate 26 0)).bind decode_payload =
      some (1234, 7 :: List.replicate 26 0) :=
  C6_encode_decode_roundtrip 1234 (7 :: List.replicate 26 0) (by decide) (by decide)
    (by decide)

/-- C7: every batch has pairwise distinct ticket ids, and the ids are drawn
without replacement from the space 1000..9999: they are the first `count`
elements of a permutation (shuffle) of that space. -/
theorem C7_batch_ids_unique_random (t : Nat → Nat) (cardTapes : Nat → Tape) (n : Nat) :
    ((build_batch t cardTapes n).map Prod.fst).Nodup ∧
    (build_batch t cardTapes n).map Prod.fst = (shuffle t (List.range' 1000 9000)).take n ∧
    List.Perm (shuffle t (List.range' 1000 9000)) (List.range' 1000 9000) ∧
    (∀ x ∈ (build_batch t cardTapes n).map Prod.fst, 1000 ≤ x ∧ x ≤ 9999) := by
  obtain ⟨hnd, hmem, hlen⟩ := ticket_ids_spec t n
  rw [build_batch_ids]
  refine ⟨hnd, rfl, shuffle_perm t _, ?_⟩
  intro x hx
  have := hmem x hx
  omega

theorem C7_witness :
    ((build_batch (fun k => k) (fun _ => trivTape) 4).map Prod.fst).Nodup ∧
    (build_batch (fun k => k) (fun _ => trivTape) 4).map Prod.fst =
      (shuffle (fun k => k) (List.range' 1000 9000)).take 4 :=
  ⟨(C7_batch_ids_unique_random (fun k => k) (fun _ => trivTape) 4).1,
    (C7_batch_ids_unique_random (fun k => k) (fun _ => trivTape) 4).2.1⟩

/-- C8 counterexample: the claim "requesting more than 9000 tickets raises a
CapacityError immediately and produces no batch" is false on the code: there is
no CapacityError anywhere in `generate_tickets.py`; requesting 9001 tickets
silently yields a batch of 9000 tickets (the slice `all_ids[:num_tickets]` just
truncates). -/
theorem C8_counterexample :
    9000 < 9001 ∧ (build_batch (fun k => k) (fun _ => trivTape) 9001).length = 9000 := by
  refine ⟨by omega, ?_⟩
  rw [build_batch_length]
  omega

/-- C8 amended: when the requested count exceeds the 9000-id space, no error is
raised; the builder silently produces a batch of exactly 9000 tickets. -/
theorem C8_amended_silent_truncation (t : Nat → Nat) (cardTapes : Nat → Tape) (n : Nat)
    (h : 9000 < n) : (build_batch t cardTapes n).length = 9000 := by
  rw [build_batch_length]
  omega

theorem C8_amended_witness :
    (build_batch (fun k => k) (fun _ => trivTape) 9001).length = 9000 :=
  C8_amended_silent_truncation (fun k => k) (fun _ => trivTape) 9001 (by omega)

set_option maxRecDepth 8000 in
/-- C9 counterexample: the claim "a configuration with an empty available set
for some column raises ConfigurationError before generation and produces no
grid" is false on the code: no ConfigurationError exists in
`generate_tickets.py`.  Excluding all of 1..9 empties column 0's available set,
yet `generate` returns a well-formed 3x9 grid. -/
theorem C9_counterexample :
    availableNumbers [1, 2, 3, 4, 5, 6, 7, 8, 9] 0 = [] ∧
    gridWF (generate [1, 2, 3, 4, 5, 6, 7, 8, 9] trivTape) ∧
    (generate [1, 2, 3, 4, 5, 6, 7, 8, 9] trivTape).length = 3 :=
  ⟨by decide, by decide, by decide⟩

/-- C9 amended: generation never raises for a degenerate configuration; it
proceeds and returns a well-formed grid in which the starved column is entirely
blank. -/
theorem C9_amended_silent_blank_column (ex : List Nat) (t : Tape) (c : Nat) (hc : c < 9)
    (hav : availableNumbers ex c = []) :
    gridWF (generate ex t) ∧ ∀ r, r < 3 → getCell (generate ex t) r c = 0 :=
  ⟨gridWF_generate ex t, fun r hr => generate_empty_avail t hc hav r hr⟩

theorem C9_amended_witness :
    gridWF (generate [1, 2, 3, 4, 5, 6, 7, 8, 9] trivTape) ∧
    ∀ r, r < 3 → getCell (generate [1, 2, 3, 4, 5, 6, 7, 8, 9] trivTape) r 0 = 0 :=
  C9_amended_silent_blank_column [1, 2, 3, 4, 5, 6, 7, 8, 9] trivTape 0 (by decide)
    (by decide)

end Bingo
